import Mathlib

/-!
Shallow embedding of `src/index.js` (the "death game" server).

Conventions of the embedding:
* JavaScript `Map` objects are modelled as insertion-ordered association
  lists (`List (κ × α)`); `Map.get` is `mapGet` (first matching key),
  `Map.set` is `mapSet` (replaces the value of an existing key in place,
  appends a fresh key at the end), `Map.delete` is `mapDelete`.
* JavaScript numbers are modelled as exact rationals (`ℚ`); IEEE-754
  rounding is not modelled.  `avg * 0.8` is `ℚ` multiplication by `4/5`
  (the spec states `target = average × 0.8` exactly).  For an empty
  submission map JavaScript would produce `NaN` for the average where
  `ℚ` division yields `0`; no control-flow decision of the program
  depends on that value in that case.
* Socket ids / player ids are `String`s.
* Mutation of a `Player` object fetched from the map is modelled by
  replacing the entry of its key (each key of the JS map holds a
  distinct `Player` object, so `player !== closestPlayer` is key
  disequality).  `player.points +=` on a key that is absent from the
  map would throw in JS; the model leaves the map unchanged, and no
  theorem below depends on that case.
* `Date.now()` (`roundStartTime`) and the 10-second timer delay are not
  modelled; the timer callback itself is (`GameEvent.timerEvt`).
-/

namespace DeathBack

/-- `Map.get`: value of the first entry with the given key. -/
def mapGet {κ α : Type} [DecidableEq κ] : List (κ × α) → κ → Option α
  | [], _ => none
  | e :: rest, k => if e.1 = k then some e.2 else mapGet rest k

/-- `Map.set`: replace the value of an existing key in place, append a
fresh key at the end (JS `Map` insertion-order semantics). -/
def mapSet {κ α : Type} [DecidableEq κ] : List (κ × α) → κ → α → List (κ × α)
  | [], k, v => [(k, v)]
  | e :: rest, k, v => if e.1 = k then (k, v) :: rest else e :: mapSet rest k v

/-- `Map.delete`: remove the entry with the given key. -/
def mapDelete {κ α : Type} [DecidableEq κ] : List (κ × α) → κ → List (κ × α)
  | [], _ => []
  | e :: rest, k => if e.1 = k then rest else e :: mapDelete rest k

/-- The `Player` class (src/index.js lines 23-31). -/
structure Player where
  id : String
  name : String
  points : Int
  isAlive : Bool
  number : Option ℚ
deriving DecidableEq, Repr

/-- The `Player` constructor: points 0, alive, no number. -/
def mkPlayer (id name : String) : Player :=
  { id := id, name := name, points := 0, isAlive := true, number := none }

/-- `currentPhase` values: the string constants `'waiting'`, `'playing'`,
`'roundEnd'` from src/index.js line 39. -/
inductive Phase
  | waiting
  | playing
  | roundEnd
deriving DecidableEq, Repr

/-- The `DeathGame` class state (src/index.js lines 33-41).
`roundStartTime` (wall-clock) is not modelled. -/
structure DeathGame where
  players : List (String × Player)
  round : Nat
  eliminatedCount : Nat
  currentPhase : Phase
  roundNumbers : List (String × ℚ)
deriving DecidableEq, Repr

/-- The `DeathGame` constructor (src/index.js lines 34-41). -/
def mkDeathGame (ps : List (String × Player)) : DeathGame :=
  { players := ps, round := 1, eliminatedCount := 0,
    currentPhase := Phase.waiting, roundNumbers := [] }

/-- `getAlivePlayers()` (src/index.js lines 133-135). -/
def getAlivePlayers (g : DeathGame) : List Player :=
  (g.players.map (·.2)).filter (·.isAlive)

/-- Ids of the currently alive players (same filter as `getAlivePlayers`,
keeping the keys). -/
def aliveIds (g : DeathGame) : List String :=
  (g.players.filter (fun e => e.2.isAlive)).map (·.1)

/-- `isNewRuleRound()` (src/index.js lines 137-142); arithmetic on
`players.size` is done in `Int` as in JS. -/
def isNewRuleRound (g : DeathGame) : Bool :=
  g.round = 1 ∨
    (g.eliminatedCount : Int) = (g.players.length : Int) - 4 ∨
    (g.eliminatedCount : Int) = (g.players.length : Int) - 3 ∨
    (g.eliminatedCount : Int) = (g.players.length : Int) - 2

/-- The record returned by `startRound()` (src/index.js lines 47-51). -/
structure RoundInfo where
  round : Nat
  timeLimit : Nat
  playersRemaining : Nat
deriving DecidableEq, Repr

/-- `startRound()` (src/index.js lines 43-52): phase becomes `playing`,
the submission map is cleared. -/
def startRound (g : DeathGame) : RoundInfo × DeathGame :=
  let g' := { g with currentPhase := Phase.playing, roundNumbers := [] }
  ({ round := g.round,
     timeLimit := if isNewRuleRound g then 300 else 60,
     playersRemaining := (getAlivePlayers g).length }, g')

/-- `submitNumber(playerId, number)` (src/index.js lines 54-60): rejected
unless the phase is `playing` and the player exists and is alive;
otherwise records the number (overwriting any earlier submission) and
returns whether every alive player has now submitted. -/
def submitNumber (g : DeathGame) (playerId : String) (number : ℚ) :
    Bool × DeathGame :=
  if g.currentPhase ≠ Phase.playing then (false, g)
  else
    match mapGet g.players playerId with
    | none => (false, g)
    | some p =>
      if p.isAlive then
        let g' := { g with roundNumbers := mapSet g.roundNumbers playerId number }
        (decide (g'.roundNumbers.length = (getAlivePlayers g').length), g')
      else (false, g)

/-- The submitted values, in insertion order (`Array.from(this.roundNumbers.values())`,
src/index.js line 63). -/
def roundValues (g : DeathGame) : List ℚ :=
  g.roundNumbers.map (·.2)

/-- `avg` (src/index.js line 64): sum of the submissions divided by their
count. -/
def roundAverage (g : DeathGame) : ℚ :=
  (roundValues g).sum / ((roundValues g).length : ℚ)

/-- `target = avg * 0.8` (src/index.js line 65). -/
def roundTarget (g : DeathGame) : ℚ :=
  roundAverage g * (0.8 : ℚ)

/-- `duplicates` (src/index.js lines 68-70): the occurrences of the
submitted values whose index differs from the first index of that value,
i.e. every occurrence after the first of a repeated value. -/
def duplicates (numbers : List ℚ) : List ℚ :=
  (numbers.enum.filter (fun e => decide (numbers.indexOf e.2 ≠ e.1))).map (·.2)

/-- The guard of the two-player special rule (src/index.js lines 73-74). -/
def specialRuleFires (g : DeathGame) : Prop :=
  (getAlivePlayers g).length = 2 ∧
    (0 : ℚ) ∈ roundValues g ∧ (100 : ℚ) ∈ roundValues g

instance (g : DeathGame) : Decidable (specialRuleFires g) := by
  unfold specialRuleFires; infer_instance

/-- One step of the winner-search loop (src/index.js lines 89-98): skip a
submission whose value is a duplicate when at most 4 players are alive,
otherwise keep the entry with the strictly smallest distance so far.
The accumulator holds `(closestPlayer, closestDistance)`; `none` is the
initial `closestPlayer = null / closestDistance = Infinity`. -/
def winnerStep (aliveLen : Nat) (dups : List ℚ) (target : ℚ)
    (acc : Option (String × ℚ)) (e : String × ℚ) : Option (String × ℚ) :=
  if e.2 ∈ dups ∧ aliveLen ≤ 4 then acc
  else
    match acc with
    | none => some (e.1, |e.2 - target|)
    | some (b, bd) => if |e.2 - target| < bd then some (e.1, |e.2 - target|) else some (b, bd)

/-- The winner-search loop over all submissions (src/index.js lines 85-98). -/
def findWinner (aliveLen : Nat) (dups : List ℚ) (target : ℚ)
    (subs : List (String × ℚ)) : Option (String × ℚ) :=
  subs.foldl (winnerStep aliveLen dups target) none

/-- The id of the round winner (`closestPlayer`), if any. -/
def roundWinnerId (g : DeathGame) : Option String :=
  (findWinner (getAlivePlayers g).length (duplicates (roundValues g))
      (roundTarget g) g.roundNumbers).map (·.1)

/-- The penalty of a non-winning submission (src/index.js lines 104-107):
`-1`, doubled to `-2` when exactly 3 players are alive and the value
equals the target. -/
def penaltyFor (aliveLen : Nat) (target number : ℚ) : Int :=
  if aliveLen = 3 ∧ number = target then -2 else -1

/-- Add `d` to a player's points (`player.points += penalty`). -/
def addPoints (p : Player) (d : Int) : Player :=
  { p with points := p.points + d }

/-- Replace the entry of `playerId` by the same player with `d` added to
its points (mutation of the `Player` object fetched from the map). -/
def updPoints {α : Type} [DecidableEq α] :
    List (α × Player) → α → Int → List (α × Player)
  | [], _, _ => []
  | e :: rest, k, d =>
    if e.1 = k then (e.1, addPoints e.2 d) :: rest else e :: updPoints rest k d

/-- The penalty loop (src/index.js lines 100-110): every submitting
player other than the winner loses `penaltyFor` points. -/
def applyPenalties (aliveLen : Nat) (target : ℚ) (winner : Option String)
    (subs : List (String × ℚ)) (ps : List (String × Player)) :
    List (String × Player) :=
  subs.foldl
    (fun acc e =>
      if winner = some e.1 then acc
      else updPoints acc e.1 (penaltyFor aliveLen target e.2))
    ps

/-- The players map after the penalty loop of this round. -/
def postPenaltyPlayers (g : DeathGame) : List (String × Player) :=
  applyPenalties (getAlivePlayers g).length (roundTarget g) (roundWinnerId g)
    g.roundNumbers g.players

/-- The elimination rule applied to one player (src/index.js lines 114-119). -/
def elimPlayer (p : Player) : Player :=
  if p.isAlive ∧ p.points ≤ -10 then { p with isAlive := false } else p

/-- The elimination loop over all players (src/index.js lines 113-120). -/
def applyElims (ps : List (String × Player)) : List (String × Player) :=
  ps.map (fun e => (e.1, elimPlayer e.2))

/-- Ids of the players newly eliminated this round (`newEliminations`). -/
def newlyEliminated (ps : List (String × Player)) : List String :=
  (ps.filter (fun e => e.2.isAlive && decide (e.2.points ≤ -10))).map (·.1)

/-- The value returned by `calculateRoundResults()`: the special-rule
branch (src/index.js lines 77-81) returns only `winner`, `gameOver: true`
and `specialRule: true`; the normal branch (lines 122-130) returns the
full record.  The `winner` is identified by its player id. -/
inductive RoundResult
  | special (winner : Option String)
  | normal (average target : ℚ) (winner : Option String)
      (duplicateValues : List ℚ) (eliminated : List String) (gameOver : Bool)
deriving DecidableEq, Repr

/-- The `winner` field of a round result. -/
def RoundResult.winner : RoundResult → Option String
  | .special w => w
  | .normal _ _ w _ _ _ => w

/-- The `gameOver` field of a round result (`true` on the special branch). -/
def RoundResult.gameOver : RoundResult → Bool
  | .special _ => true
  | .normal _ _ _ _ _ go => go

/-- The `specialRule` field of a round result (absent, i.e. falsy, on the
normal branch). -/
def RoundResult.specialRule : RoundResult → Bool
  | .special _ => true
  | .normal _ _ _ _ _ _ => false

/-- `calculateRoundResults()` (src/index.js lines 62-131), returning the
result record together with the updated game state.  Note that the
source never assigns `currentPhase` here. -/
def calculateRoundResults (g : DeathGame) : RoundResult × DeathGame :=
  if specialRuleFires g then
    (RoundResult.special
        ((g.roundNumbers.find? (fun e => decide (e.2 = (100 : ℚ)))).map (·.1)),
      g)
  else
    let mid := postPenaltyPlayers g
    let elims := newlyEliminated mid
    let players' := applyElims mid
    let g' := { g with players := players',
                       eliminatedCount := g.eliminatedCount + elims.length }
    (RoundResult.normal (roundAverage g) (roundTarget g) (roundWinnerId g)
        (duplicates (roundValues g)) elims
        (decide ((getAlivePlayers g').length ≤ 1)),
      g')

/-! ### The socket-event layer of a running game -/

/-- Primitive operations a `DeathGame` object undergoes: `startRound()`,
`submitNumber()`, `calculateRoundResults()` and the scheduler's
`game.round++` followed by `startRound()` (src/index.js lines 216-220). -/
inductive GameOp
  | startOp
  | submitOp (playerId : String) (number : ℚ)
  | resolveOp
  | nextRoundOp
deriving DecidableEq, Repr

/-- Apply one primitive operation to the game state. -/
def applyOp (g : DeathGame) : GameOp → DeathGame
  | GameOp.startOp => (startRound g).2
  | GameOp.submitOp pid n => (submitNumber g pid n).2
  | GameOp.resolveOp => (calculateRoundResults g).2
  | GameOp.nextRoundOp => (startRound { g with round := g.round + 1 }).2

/-- Apply a sequence of primitive operations. -/
def applyOps (g : DeathGame) (ops : List GameOp) : DeathGame :=
  ops.foldl applyOp g

/-- The points of a player by id (`0` for an id not in the map). -/
def pointsD (g : DeathGame) (pid : String) : Int :=
  ((mapGet g.players pid).map Player.points).getD 0

/-- The inbound events handled for a running game: a `submitNumber` socket
event (src/index.js lines 199-223) and the 10-second next-round timer
callback (lines 216-220). -/
inductive GameEvent
  | submitEvt (playerId : String) (number : ℚ)
  | timerEvt
deriving DecidableEq, Repr

/-- The event handlers: a submission that completes the round immediately
runs `calculateRoundResults()` (src/index.js lines 203-206); the timer
increments `round` and starts the next round (lines 216-220). -/
def applyEvent (g : DeathGame) : GameEvent → DeathGame
  | GameEvent.submitEvt pid n =>
    let r := submitNumber g pid n
    if r.1 then (calculateRoundResults r.2).2 else r.2
  | GameEvent.timerEvt => (startRound { g with round := g.round + 1 }).2

/-- Apply a sequence of events. -/
def applyEvents (g : DeathGame) (evs : List GameEvent) : DeathGame :=
  evs.foldl applyEvent g

/-- The game state right after a room fills: `new DeathGame(room.players)`
followed by `game.startRound()` (src/index.js lines 189-193). -/
def initGame (ps : List (String × Player)) : DeathGame :=
  (startRound (mkDeathGame ps)).2

/-- A run of `submitNumber` calls (ignoring the returned flags). -/
def applySubmits (g : DeathGame) (subs : List (String × ℚ)) : DeathGame :=
  subs.foldl (fun h e => (submitNumber h e.1 e.2).2) g

/-! ### The room registry (waiting rooms and active games) -/

/-- A waiting room (src/index.js lines 152-155). -/
structure WaitingRoom where
  host : String
  players : List (String × Player)
deriving DecidableEq, Repr

/-- The module-level `games` and `waitingRooms` maps (src/index.js
lines 20-21). -/
structure Registry where
  rooms : List (String × WaitingRoom)
  games : List (String × DeathGame)
deriving DecidableEq, Repr

/-- Both maps start empty. -/
def emptyRegistry : Registry := { rooms := [], games := [] }

/-- The `createRoom` handler (src/index.js lines 148-159).  The room code
produced by `generateRoomCode()` is an event parameter: it is random and
not checked for collisions, in which case `Map.set` overwrites. -/
def createRoom (R : Registry) (code sid playerName : String) : Registry :=
  { R with
    rooms := mapSet R.rooms code
      { host := sid, players := [(sid, mkPlayer sid playerName)] } }

/-- Outcome of a `joinRoom` event, as signalled to the client. -/
inductive JoinResult
  | roomNotFound
  | roomFull
  | joined
  | started
deriving DecidableEq, Repr

/-- The `joinRoom` handler (src/index.js lines 162-196): unknown code and
full room are errors; otherwise the player is added, and a room reaching
5 players is converted into a started `DeathGame` and removed from the
waiting rooms. -/
def joinRoom (R : Registry) (code sid playerName : String) :
    JoinResult × Registry :=
  match mapGet R.rooms code with
  | none => (JoinResult.roomNotFound, R)
  | some room =>
    if 5 ≤ room.players.length then (JoinResult.roomFull, R)
    else
      let players' := mapSet room.players sid (mkPlayer sid playerName)
      if players'.length = 5 then
        (JoinResult.started,
          { rooms := mapDelete R.rooms code,
            games := mapSet R.games code (startRound (mkDeathGame players')).2 })
      else
        (JoinResult.joined,
          { R with rooms := mapSet R.rooms code { room with players := players' } })

/-- Room-registry events (the socket handlers that touch `waitingRooms`). -/
inductive RegistryEvent
  | createEvt (code sid playerName : String)
  | joinEvt (code sid playerName : String)
deriving DecidableEq, Repr

/-- Serialized event processing (single-threaded event loop). -/
def applyRegistryEvent (R : Registry) : RegistryEvent → Registry
  | RegistryEvent.createEvt c s n => createRoom R c s n
  | RegistryEvent.joinEvt c s n => (joinRoom R c s n).2

/-- The registry reached from process start by a sequence of events. -/
def applyRegistryEvents (evs : List RegistryEvent) : Registry :=
  evs.foldl applyRegistryEvent emptyRegistry

/-! ### Concrete game states used as witnesses and counterexamples -/

/-- A player record with the given id, points and alive flag. -/
def testPlayer (id : String) (pts : Int) (alive : Bool) : Player :=
  { id := id, name := id, points := pts, isAlive := alive, number := none }

/-- Scenario A of the spec: five alive players having submitted
50, 50, 30, 70, 90. -/
def gA : DeathGame :=
  { players := [("p1", testPlayer "p1" 0 true), ("p2", testPlayer "p2" 0 true),
                ("p3", testPlayer "p3" 0 true), ("p4", testPlayer "p4" 0 true),
                ("p5", testPlayer "p5" 0 true)],
    round := 1, eliminatedCount := 0, currentPhase := Phase.playing,
    roundNumbers := [("p1", 50), ("p2", 50), ("p3", 30), ("p4", 70), ("p5", 90)] }

/-- Two alive players having submitted 0 and 100. -/
def gC2 : DeathGame :=
  { players := [("a", testPlayer "a" 0 true), ("b", testPlayer "b" 0 true)],
    round := 3, eliminatedCount := 0, currentPhase := Phase.playing,
    roundNumbers := [("a", 0), ("b", 100)] }

/-- Three alive players, one of them at -9 points, having submitted
10, 20, 30 (average 20, target 16, winner `q2`). -/
def gC3 : DeathGame :=
  { players := [("q1", testPlayer "q1" 0 true), ("q2", testPlayer "q2" 0 true),
                ("q3", testPlayer "q3" (-9) true)],
    round := 10, eliminatedCount := 0, currentPhase := Phase.playing,
    roundNumbers := [("q1", 10), ("q2", 20), ("q3", 30)] }

/-- Three alive players having submitted 4, 4, 7: average 5, target 4, the
two 4-submitters are duplicates (and equal to the target), winner `r3`. -/
def gC4 : DeathGame :=
  { players := [("r1", testPlayer "r1" 0 true), ("r2", testPlayer "r2" 0 true),
                ("r3", testPlayer "r3" 0 true)],
    round := 2, eliminatedCount := 0, currentPhase := Phase.playing,
    roundNumbers := [("r1", 4), ("r2", 4), ("r3", 7)] }

/-- Two alive players having submitted 0 and 100 (sudden-death input for
the gameOver counterexample). -/
def gC5x : DeathGame :=
  { players := [("u1", testPlayer "u1" 0 true), ("u2", testPlayer "u2" 0 true)],
    round := 5, eliminatedCount := 0, currentPhase := Phase.playing,
    roundNumbers := [("u1", 0), ("u2", 100)] }

/-- Four alive players whose submissions are all duplicated (normal-path
input for the gameOver witness). -/
def gC5n : DeathGame :=
  { players := [("v1", testPlayer "v1" 0 true), ("v2", testPlayer "v2" 0 true),
                ("v3", testPlayer "v3" 0 true), ("v4", testPlayer "v4" 0 true)],
    round := 1, eliminatedCount := 0, currentPhase := Phase.playing,
    roundNumbers := [("v1", 1), ("v2", 1), ("v3", 2), ("v4", 2)] }

/-- Four alive players whose submissions are all duplicated (so the round
resolves with no winner and no rational arithmetic is needed). -/
def gC6 : DeathGame :=
  { players := [("w1", testPlayer "w1" 0 true), ("w2", testPlayer "w2" 0 true),
                ("w3", testPlayer "w3" 0 true), ("w4", testPlayer "w4" 0 true)],
    round := 1, eliminatedCount := 0, currentPhase := Phase.playing,
    roundNumbers := [("w1", 3), ("w2", 3), ("w3", 8), ("w4", 8)] }

/-- Four alive players, every submitted value shared by two players. -/
def gC9 : DeathGame :=
  { players := [("x1", testPlayer "x1" 0 true), ("x2", testPlayer "x2" 0 true),
                ("x3", testPlayer "x3" 0 true), ("x4", testPlayer "x4" 0 true)],
    round := 1, eliminatedCount := 0, currentPhase := Phase.playing,
    roundNumbers := [("x1", 5), ("x2", 5), ("x3", 7), ("x4", 7)] }

/-- The five fresh players of the C7 trace. -/
def playersC7 : List (String × Player) :=
  [("p1", testPlayer "p1" 0 true), ("p2", testPlayer "p2" 0 true),
   ("p3", testPlayer "p3" 0 true), ("p4", testPlayer "p4" 0 true),
   ("p5", testPlayer "p5" 0 true)]

/-- A genuine event trace: the five players submit 50 each (round
resolves on the fifth submission); since the phase is never left as
`playing`, the further submissions re-trigger resolution each time;
`p5` switches to 40 so that rounds 6-10 are won by `p5`, driving
`p2`, `p3`, `p4` to -10 points at the tenth resolution. -/
def eventsC7 : List GameEvent :=
  [GameEvent.submitEvt "p1" 50, GameEvent.submitEvt "p2" 50,
   GameEvent.submitEvt "p3" 50, GameEvent.submitEvt "p4" 50,
   GameEvent.submitEvt "p5" 50,
   GameEvent.submitEvt "p1" 50, GameEvent.submitEvt "p1" 50,
   GameEvent.submitEvt "p1" 50, GameEvent.submitEvt "p1" 50,
   GameEvent.submitEvt "p5" 40,
   GameEvent.submitEvt "p1" 50, GameEvent.submitEvt "p1" 50,
   GameEvent.submitEvt "p1" 50, GameEvent.submitEvt "p1" 50]

/-- State of the C7 trace after 0 events. -/
def sC7_0 : DeathGame :=
  { players := [("p1", testPlayer "p1" (0) true),
                ("p2", testPlayer "p2" (0) true),
                ("p3", testPlayer "p3" (0) true),
                ("p4", testPlayer "p4" (0) true),
                ("p5", testPlayer "p5" (0) true)],
    round := 1, eliminatedCount := 0, currentPhase := Phase.playing,
    roundNumbers := [] }

/-- State of the C7 trace after 1 events. -/
def sC7_1 : DeathGame :=
  { players := [("p1", testPlayer "p1" (0) true),
                ("p2", testPlayer "p2" (0) true),
                ("p3", testPlayer "p3" (0) true),
                ("p4", testPlayer "p4" (0) true),
                ("p5", testPlayer "p5" (0) true)],
    round := 1, eliminatedCount := 0, currentPhase := Phase.playing,
    roundNumbers := [("p1", 50)] }

/-- State of the C7 trace after 2 events. -/
def sC7_2 : DeathGame :=
  { players := [("p1", testPlayer "p1" (0) true),
                ("p2", testPlayer "p2" (0) true),
                ("p3", testPlayer "p3" (0) true),
                ("p4", testPlayer "p4" (0) true),
                ("p5", testPlayer "p5" (0) true)],
    round := 1, eliminatedCount := 0, currentPhase := Phase.playing,
    roundNumbers := [("p1", 50), ("p2", 50)] }

/-- State of the C7 trace after 3 events. -/
def sC7_3 : DeathGame :=
  { players := [("p1", testPlayer "p1" (0) true),
                ("p2", testPlayer "p2" (0) true),
                ("p3", testPlayer "p3" (0) true),
                ("p4", testPlayer "p4" (0) true),
                ("p5", testPlayer "p5" (0) true)],
    round := 1, eliminatedCount := 0, currentPhase := Phase.playing,
    roundNumbers := [("p1", 50), ("p2", 50), ("p3", 50)] }

/-- State of the C7 trace after 4 events. -/
def sC7_4 : DeathGame :=
  { players := [("p1", testPlayer "p1" (0) true),
                ("p2", testPlayer "p2" (0) true),
                ("p3", testPlayer "p3" (0) true),
                ("p4", testPlayer "p4" (0) true),
                ("p5", testPlayer "p5" (0) true)],
    round := 1, eliminatedCount := 0, currentPhase := Phase.playing,
    roundNumbers := [("p1", 50), ("p2", 50), ("p3", 50), ("p4", 50)] }

/-- State of the C7 trace after 5 events. -/
def sC7_5 : DeathGame :=
  { players := [("p1", testPlayer "p1" (0) true),
                ("p2", testPlayer "p2" (-1) true),
                ("p3", testPlayer "p3" (-1) true),
                ("p4", testPlayer "p4" (-1) true),
                ("p5", testPlayer "p5" (-1) true)],
    round := 1, eliminatedCount := 0, currentPhase := Phase.playing,
    roundNumbers := [("p1", 50), ("p2", 50), ("p3", 50), ("p4", 50), ("p5", 50)] }

/-- State of the C7 trace after 6 events. -/
def sC7_6 : DeathGame :=
  { players := [("p1", testPlayer "p1" (0) true),
                ("p2", testPlayer "p2" (-2) true),
                ("p3", testPlayer "p3" (-2) true),
                ("p4", testPlayer "p4" (-2) true),
                ("p5", testPlayer "p5" (-2) true)],
    round := 1, eliminatedCount := 0, currentPhase := Phase.playing,
    roundNumbers := [("p1", 50), ("p2", 50), ("p3", 50), ("p4", 50), ("p5", 50)] }

/-- State of the C7 trace after 7 events. -/
def sC7_7 : DeathGame :=
  { players := [("p1", testPlayer "p1" (0) true),
                ("p2", testPlayer "p2" (-3) true),
                ("p3", testPlayer "p3" (-3) true),
                ("p4", testPlayer "p4" (-3) true),
                ("p5", testPlayer "p5" (-3) true)],
    round := 1, eliminatedCount := 0, currentPhase := Phase.playing,
    roundNumbers := [("p1", 50), ("p2", 50), ("p3", 50), ("p4", 50), ("p5", 50)] }

/-- State of the C7 trace after 8 events. -/
def sC7_8 : DeathGame :=
  { players := [("p1", testPlayer "p1" (0) true),
                ("p2", testPlayer "p2" (-4) true),
                ("p3", testPlayer "p3" (-4) true),
                ("p4", testPlayer "p4" (-4) true),
                ("p5", testPlayer "p5" (-4) true)],
    round := 1, eliminatedCount := 0, currentPhase := Phase.playing,
    roundNumbers := [("p1", 50), ("p2", 50), ("p3", 50), ("p4", 50), ("p5", 50)] }

/-- State of the C7 trace after 9 events. -/
def sC7_9 : DeathGame :=
  { players := [("p1", testPlayer "p1" (0) true),
                ("p2", testPlayer "p2" (-5) true),
                ("p3", testPlayer "p3" (-5) true),
                ("p4", testPlayer "p4" (-5) true),
                ("p5", testPlayer "p5" (-5) true)],
    round := 1, eliminatedCount := 0, currentPhase := Phase.playing,
    roundNumbers := [("p1", 50), ("p2", 50), ("p3", 50), ("p4", 50), ("p5", 50)] }

/-- State of the C7 trace after 10 events. -/
def sC7_10 : DeathGame :=
  { players := [("p1", testPlayer "p1" (-1) true),
                ("p2", testPlayer "p2" (-6) true),
                ("p3", testPlayer "p3" (-6) true),
                ("p4", testPlayer "p4" (-6) true),
                ("p5", testPlayer "p5" (-5) true)],
    round := 1, eliminatedCount := 0, currentPhase := Phase.playing,
    roundNumbers := [("p1", 50), ("p2", 50), ("p3", 50), ("p4", 50), ("p5", 40)] }

/-- State of the C7 trace after 11 events. -/
def sC7_11 : DeathGame :=
  { players := [("p1", testPlayer "p1" (-2) true),
                ("p2", testPlayer "p2" (-7) true),
                ("p3", testPlayer "p3" (-7) true),
                ("p4", testPlayer "p4" (-7) true),
                ("p5", testPlayer "p5" (-5) true)],
    round := 1, eliminatedCount := 0, currentPhase := Phase.playing,
    roundNumbers := [("p1", 50), ("p2", 50), ("p3", 50), ("p4", 50), ("p5", 40)] }

/-- State of the C7 trace after 12 events. -/
def sC7_12 : DeathGame :=
  { players := [("p1", testPlayer "p1" (-3) true),
                ("p2", testPlayer "p2" (-8) true),
                ("p3", testPlayer "p3" (-8) true),
                ("p4", testPlayer "p4" (-8) true),
                ("p5", testPlayer "p5" (-5) true)],
    round := 1, eliminatedCount := 0, currentPhase := Phase.playing,
    roundNumbers := [("p1", 50), ("p2", 50), ("p3", 50), ("p4", 50), ("p5", 40)] }

/-- State of the C7 trace after 13 events. -/
def sC7_13 : DeathGame :=
  { players := [("p1", testPlayer "p1" (-4) true),
                ("p2", testPlayer "p2" (-9) true),
                ("p3", testPlayer "p3" (-9) true),
                ("p4", testPlayer "p4" (-9) true),
                ("p5", testPlayer "p5" (-5) true)],
    round := 1, eliminatedCount := 0, currentPhase := Phase.playing,
    roundNumbers := [("p1", 50), ("p2", 50), ("p3", 50), ("p4", 50), ("p5", 40)] }

/-- State of the C7 trace after 14 events. -/
def sC7_14 : DeathGame :=
  { players := [("p1", testPlayer "p1" (-5) true),
                ("p2", testPlayer "p2" (-10) false),
                ("p3", testPlayer "p3" (-10) false),
                ("p4", testPlayer "p4" (-10) false),
                ("p5", testPlayer "p5" (-5) true)],
    round := 1, eliminatedCount := 3, currentPhase := Phase.playing,
    roundNumbers := [("p1", 50), ("p2", 50), ("p3", 50), ("p4", 50), ("p5", 40)] }

/-- State during event 5, after the submission and before resolution. -/
def sC7_4b : DeathGame :=
  { players := [("p1", testPlayer "p1" (0) true),
                ("p2", testPlayer "p2" (0) true),
                ("p3", testPlayer "p3" (0) true),
                ("p4", testPlayer "p4" (0) true),
                ("p5", testPlayer "p5" (0) true)],
    round := 1, eliminatedCount := 0, currentPhase := Phase.playing,
    roundNumbers := [("p1", 50), ("p2", 50), ("p3", 50), ("p4", 50), ("p5", 50)] }

/-- State during event 10, after the submission and before resolution. -/
def sC7_9b : DeathGame :=
  { players := [("p1", testPlayer "p1" (0) true),
                ("p2", testPlayer "p2" (-5) true),
                ("p3", testPlayer "p3" (-5) true),
                ("p4", testPlayer "p4" (-5) true),
                ("p5", testPlayer "p5" (-5) true)],
    round := 1, eliminatedCount := 0, currentPhase := Phase.playing,
    roundNumbers := [("p1", 50), ("p2", 50), ("p3", 50), ("p4", 50), ("p5", 40)] }

/-! ### Association-list (JS `Map`) lemmas -/

section MapLemmas

variable {κ α : Type} [DecidableEq κ]

theorem mapGet_mapSet (m : List (κ × α)) (k k' : κ) (v : α) :
    mapGet (mapSet m k v) k' = if k = k' then some v else mapGet m k' := by
  induction m with
  | nil => simp [mapSet, mapGet]
  | cons e rest ih =>
    by_cases he : e.1 = k
    · simp only [mapSet, if_pos he, mapGet]
      rcases eq_or_ne k k' with h | h
      · simp [h, ← he]
      · simp [h, mapGet, he.symm ▸ h]
    · simp only [mapSet, if_neg he, mapGet]
      rcases eq_or_ne e.1 k' with h | h
      · have : k ≠ k' := fun hk => he (hk ▸ h)
        simp [h, this]
      · simp [h, ih]

theorem fst_mem_mapSet {m : List (κ × α)} {k k' : κ} {v : α}
    (h : k' ∈ (mapSet m k v).map (·.1)) : k' ∈ m.map (·.1) ∨ k' = k := by
  induction m with
  | nil =>
    simp only [mapSet, List.map_cons, List.map_nil, List.mem_singleton] at h
    exact Or.inr h
  | cons e rest ih =>
    by_cases he : e.1 = k
    · simp only [mapSet, if_pos he, List.map_cons, List.mem_cons] at h
      rcases h with h | h
      · exact Or.inr h
      · exact Or.inl (List.mem_cons_of_mem _ h)
    · simp only [mapSet, if_neg he, List.map_cons, List.mem_cons] at h
      rcases h with h | h
      · exact Or.inl (List.mem_cons.2 (Or.inl h))
      · rcases ih h with h' | h'
        · exact Or.inl (List.mem_cons_of_mem _ h')
        · exact Or.inr h'

theorem length_mapSet_le (m : List (κ × α)) (k : κ) (v : α) :
    (mapSet m k v).length ≤ m.length + 1 := by
  induction m with
  | nil => simp [mapSet]
  | cons e rest ih =>
    by_cases he : e.1 = k
    · simp [mapSet, he]
    · simp only [mapSet, if_neg he, List.length_cons]
      omega

theorem mem_of_mem_mapDelete {m : List (κ × α)} {k : κ} {e : κ × α}
    (h : e ∈ mapDelete m k) : e ∈ m := by
  induction m with
  | nil => simp [mapDelete] at h
  | cons e' rest ih =>
    by_cases he : e'.1 = k
    · simp only [mapDelete, if_pos he] at h
      exact List.mem_cons_of_mem _ h
    · simp only [mapDelete, if_neg he, List.mem_cons] at h
      rcases h with h | h
      · simp [h]
      · exact List.mem_cons_of_mem _ (ih h)

theorem mem_of_mapGet_eq_some {m : List (κ × α)} {k : κ} {v : α}
    (h : mapGet m k = some v) : (k, v) ∈ m := by
  induction m with
  | nil => simp [mapGet] at h
  | cons e rest ih =>
    by_cases he : e.1 = k
    · simp only [mapGet, if_pos he, Option.some.injEq] at h
      have : (k, v) = e := by rw [← he, ← h]
      rw [this]
      exact List.mem_cons_self _ _
    · simp only [mapGet, if_neg he] at h
      exact List.mem_cons_of_mem _ (ih h)

end MapLemmas

/-! ### Lemmas about point updates and eliminations -/

theorem mapGet_updPoints {α : Type} [DecidableEq α]
    (ps : List (α × Player)) (k k' : α) (d : Int) :
    mapGet (updPoints ps k d) k' =
      if k = k' then (mapGet ps k').map (fun p => addPoints p d)
      else mapGet ps k' := by
  induction ps with
  | nil => simp [updPoints, mapGet]
  | cons e rest ih =>
    by_cases he : e.1 = k
    · simp only [updPoints, if_pos he, mapGet]
      rcases eq_or_ne k k' with h | h
      · simp [h, he, h ▸ he]
      · have : ¬ e.1 = k' := fun hk => h (he ▸ hk)
        simp [h, this, mapGet]
    · simp only [updPoints, if_neg he, mapGet]
      rcases eq_or_ne e.1 k' with h | h
      · have : ¬ k = k' := fun hk => he (hk ▸ h)
        simp [h, this]
      · simp [h, ih]

theorem mapGet_applyElims (ps : List (String × Player)) (k : String) :
    mapGet (applyElims ps) k = (mapGet ps k).map elimPlayer := by
  induction ps with
  | nil => simp [applyElims, mapGet]
  | cons e rest ih =>
    by_cases he : e.1 = k
    · simp [applyElims, mapGet, he]
    · simp only [applyElims, List.map_cons] at ih ⊢
      simp [mapGet, he, ih]

/-- `elimPlayer` never changes the points of a player. -/
theorem elimPlayer_points (p : Player) : (elimPlayer p).points = p.points := by
  unfold elimPlayer
  split <;> rfl

/-! ### Characterisation of the `duplicates` list -/

/-- A value has a later occurrence (an index other than its first index)
iff it occurs at least twice. -/
theorem two_le_count_iff_exists_late_occurrence (nums : List ℚ) (n : ℚ) :
    2 ≤ nums.count n ↔ ∃ i, nums.get? i = some n ∧ nums.indexOf n ≠ i := by
  induction nums with
  | nil => simp
  | cons m rest ih =>
    rcases eq_or_ne m n with hm | hm
    · subst hm
      rw [List.count_cons_self]
      constructor
      · intro h
        have hmem : m ∈ rest := List.count_pos_iff.1 (by omega)
        obtain ⟨j, hj⟩ := List.mem_iff_get?.1 hmem
        exact ⟨j + 1, by simpa using hj, by simp [List.indexOf_cons_self]⟩
      · rintro ⟨i, hi, hne⟩
        cases i with
        | zero => simp [List.indexOf_cons_self] at hne
        | succ j =>
          have hj : rest.get? j = some m := by simpa using hi
          have hmem : m ∈ rest := List.mem_iff_get?.2 ⟨j, hj⟩
          have := List.count_pos_iff.2 hmem
          omega
    · rw [List.count_cons_of_ne (Ne.symm hm), ih]
      constructor
      · rintro ⟨j, hj, hne⟩
        refine ⟨j + 1, by simpa using hj, ?_⟩
        rw [List.indexOf_cons_ne _ hm]
        omega
      · rintro ⟨i, hi, hne⟩
        cases i with
        | zero =>
          have : m = n := by simpa using hi
          exact absurd this hm
        | succ j =>
          rw [List.indexOf_cons_ne _ hm] at hne
          exact ⟨j, by simpa using hi, by omega⟩

/-- Membership in the `duplicates` list of src/index.js lines 68-70 is
exactly "the value is submitted two or more times". -/
theorem mem_duplicates_iff (nums : List ℚ) (n : ℚ) :
    n ∈ duplicates nums ↔ 2 ≤ nums.count n := by
  rw [two_le_count_iff_exists_late_occurrence]
  simp only [duplicates, List.mem_map, List.mem_filter, decide_eq_true_eq,
    List.mem_enum_iff_get?]
  constructor
  · rintro ⟨⟨i, mval⟩, ⟨hg, hne⟩, rfl⟩
    exact ⟨i, by simpa using hg, hne⟩
  · rintro ⟨i, hg, hne⟩
    exact ⟨(i, n), ⟨by simpa using hg, hne⟩, rfl⟩

/-! ### The winner-search loop -/

/-- Starting from a non-`null` closest player, the loop never returns to
`null`. -/
theorem foldl_winnerStep_some (al : Nat) (dups : List ℚ) (target : ℚ) :
    ∀ (subs : List (String × ℚ)) (x : String × ℚ),
      ∃ y, subs.foldl (winnerStep al dups target) (some x) = some y := by
  intro subs
  induction subs with
  | nil => exact fun x => ⟨x, rfl⟩
  | cons e rest ih =>
    intro x
    simp only [List.foldl_cons]
    by_cases hskip : e.2 ∈ dups ∧ al ≤ 4
    · rw [winnerStep.eq_def, if_pos hskip]
      exact ih x
    · rw [winnerStep.eq_def, if_neg hskip]
      cases x with
      | mk b bd =>
        by_cases hlt : |e.2 - target| < bd
        · simpa [hlt] using ih (e.1, |e.2 - target|)
        · simpa [hlt] using ih (b, bd)

/-- If every submission is skipped (duplicate value with at most 4 players
alive), the loop returns `null`. -/
theorem findWinner_eq_none (al : Nat) (dups : List ℚ) (target : ℚ)
    (subs : List (String × ℚ)) (h : ∀ e ∈ subs, e.2 ∈ dups ∧ al ≤ 4) :
    findWinner al dups target subs = none := by
  unfold findWinner
  induction subs with
  | nil => rfl
  | cons e rest ih =>
    simp only [List.foldl_cons]
    rw [winnerStep.eq_def, if_pos (h e (List.mem_cons_self e rest))]
    exact ih (fun e' he' => h e' (List.mem_cons_of_mem _ he'))

/-- Full specification of the winner-search loop: if it returns a winner,
that winner's submission is in the list and was not skipped, its recorded
distance is the distance of its value to the target, it is minimal among
all non-skipped submissions, and it is at most the incoming best
distance. -/
theorem foldl_winnerStep_spec (al : Nat) (dups : List ℚ) (target : ℚ) :
    ∀ (subs : List (String × ℚ)) (acc : Option (String × ℚ)) (w : String × ℚ),
      subs.foldl (winnerStep al dups target) acc = some w →
      (acc = some w ∨
        ∃ n, (w.1, n) ∈ subs ∧ ¬(n ∈ dups ∧ al ≤ 4) ∧ w.2 = |n - target|) ∧
      (∀ e ∈ subs, ¬(e.2 ∈ dups ∧ al ≤ 4) → w.2 ≤ |e.2 - target|) ∧
      (∀ b bd, acc = some (b, bd) → w.2 ≤ bd) := by
  intro subs
  induction subs with
  | nil =>
    intro acc w h
    simp only [List.foldl_nil] at h
    refine ⟨Or.inl h, by simp, ?_⟩
    intro b bd hacc
    rw [h] at hacc
    cases hacc
    exact le_refl _
  | cons e rest ih =>
    intro acc w h
    simp only [List.foldl_cons] at h
    obtain ⟨H1, H2, H3⟩ := ih (winnerStep al dups target acc e) w h
    by_cases hskip : e.2 ∈ dups ∧ al ≤ 4
    · rw [winnerStep.eq_def, if_pos hskip] at H1 H3
      refine ⟨?_, ?_, H3⟩
      · rcases H1 with H1 | ⟨n, hn, helig, hd⟩
        · exact Or.inl H1
        · exact Or.inr ⟨n, List.mem_cons_of_mem _ hn, helig, hd⟩
      · intro e' he' helig'
        rcases List.mem_cons.1 he' with rfl | he'
        · exact absurd hskip helig'
        · exact H2 e' he' helig'
    · rw [winnerStep.eq_def, if_neg hskip] at H1 H3
      cases acc with
      | none =>
        simp only at H1 H3
        have hw2 : w.2 ≤ |e.2 - target| := H3 e.1 (|e.2 - target|) rfl
        refine ⟨?_, ?_, by intro b bd hacc; cases hacc⟩
        · rcases H1 with H1 | ⟨n, hn, helig, hd⟩
          · injection H1 with H1
            exact Or.inr ⟨e.2, by rw [← H1]; exact List.mem_cons_self e rest,
              hskip, by rw [← H1]⟩
          · exact Or.inr ⟨n, List.mem_cons_of_mem _ hn, helig, hd⟩
        · intro e' he' helig'
          rcases List.mem_cons.1 he' with rfl | he'
          · exact hw2
          · exact H2 e' he' helig'
      | some x =>
        cases x with
        | mk b bd =>
          by_cases hlt : |e.2 - target| < bd
          · simp only [hlt, if_pos] at H1 H3
            have hw2 : w.2 ≤ |e.2 - target| := H3 e.1 (|e.2 - target|) rfl
            refine ⟨?_, ?_, ?_⟩
            · rcases H1 with H1 | ⟨n, hn, helig, hd⟩
              · injection H1 with H1
                exact Or.inr ⟨e.2, by rw [← H1]; exact List.mem_cons_self e rest,
                  hskip, by rw [← H1]⟩
              · exact Or.inr ⟨n, List.mem_cons_of_mem _ hn, helig, hd⟩
            · intro e' he' helig'
              rcases List.mem_cons.1 he' with rfl | he'
              · exact hw2
              · exact H2 e' he' helig'
            · intro b' bd' hacc
              injection hacc with hacc
              cases hacc
              exact le_trans hw2 (le_of_lt hlt)
          · simp only [hlt, if_neg, if_false] at H1 H3
            have hwbd : w.2 ≤ bd := H3 b bd rfl
            refine ⟨?_, ?_, ?_⟩
            · rcases H1 with H1 | ⟨n, hn, helig, hd⟩
              · exact Or.inl H1
              · exact Or.inr ⟨n, List.mem_cons_of_mem _ hn, helig, hd⟩
            · intro e' he' helig'
              rcases List.mem_cons.1 he' with rfl | he'
              · exact le_trans hwbd (not_lt.1 hlt)
              · exact H2 e' he' helig'
            · intro b' bd' hacc
              injection hacc with hacc
              cases hacc
              exact hwbd


/-! ### Lemmas about the penalty loop -/

/-- A penalty is always strictly negative (`-1` or `-2`). -/
theorem penaltyFor_neg (al : Nat) (t n : ℚ) : penaltyFor al t n < 0 := by
  unfold penaltyFor
  split <;> decide

theorem addPoints_zero (p : Player) : addPoints p 0 = p := by
  simp [addPoints]

theorem addPoints_addPoints (p : Player) (d1 d2 : Int) :
    addPoints (addPoints p d1) d2 = addPoints p (d1 + d2) := by
  simp [addPoints, add_assoc]

theorem applyPenalties_nil (al : Nat) (t : ℚ) (w : Option String)
    (ps : List (String × Player)) : applyPenalties al t w [] ps = ps := rfl

theorem applyPenalties_cons (al : Nat) (t : ℚ) (w : Option String)
    (e : String × ℚ) (subs : List (String × ℚ)) (ps : List (String × Player)) :
    applyPenalties al t w (e :: subs) ps =
      applyPenalties al t w subs
        (if w = some e.1 then ps else updPoints ps e.1 (penaltyFor al t e.2)) := by
  simp only [applyPenalties, List.foldl_cons]

/-- The penalty loop can only ever lower a player's points (by some
`d ≤ 0` in total), never change anything else about the player. -/
theorem applyPenalties_mapGet_some (al : Nat) (t : ℚ) (w : Option String) :
    ∀ (subs : List (String × ℚ)) (ps : List (String × Player)) (k : String)
      (p : Player), mapGet ps k = some p →
      ∃ d : Int, d ≤ 0 ∧
        mapGet (applyPenalties al t w subs ps) k = some (addPoints p d) := by
  intro subs
  induction subs with
  | nil =>
    intro ps k p h
    exact ⟨0, le_refl 0, by rw [applyPenalties_nil, h, addPoints_zero]⟩
  | cons e rest ih =>
    intro ps k p h
    rw [applyPenalties_cons]
    by_cases hw : w = some e.1
    · rw [if_pos hw]
      exact ih ps k p h
    · rw [if_neg hw]
      by_cases hk : e.1 = k
      · have hupd : mapGet (updPoints ps e.1 (penaltyFor al t e.2)) k =
            some (addPoints p (penaltyFor al t e.2)) := by
          rw [mapGet_updPoints, if_pos hk, h]
          rfl
        obtain ⟨d, hd, hfin⟩ := ih _ k _ hupd
        exact ⟨penaltyFor al t e.2 + d,
          by have := penaltyFor_neg al t e.2; omega,
          by rw [hfin, addPoints_addPoints]⟩
      · have hupd : mapGet (updPoints ps e.1 (penaltyFor al t e.2)) k =
            some p := by rw [mapGet_updPoints, if_neg hk, h]
        exact ih _ k _ hupd

/-- The penalty loop never adds or removes players. -/
theorem applyPenalties_mapGet_none (al : Nat) (t : ℚ) (w : Option String) :
    ∀ (subs : List (String × ℚ)) (ps : List (String × Player)) (k : String),
      mapGet ps k = none → mapGet (applyPenalties al t w subs ps) k = none := by
  intro subs
  induction subs with
  | nil => intro ps k h; rw [applyPenalties_nil, h]
  | cons e rest ih =>
    intro ps k h
    rw [applyPenalties_cons]
    by_cases hw : w = some e.1
    · rw [if_pos hw]; exact ih ps k h
    · rw [if_neg hw]
      refine ih _ k ?_
      by_cases hk : e.1 = k
      · rw [mapGet_updPoints, if_pos hk, h]; rfl
      · rw [mapGet_updPoints, if_neg hk, h]

/-- A player that did not submit is untouched by the penalty loop. -/
theorem applyPenalties_mapGet_not_mem (al : Nat) (t : ℚ) (w : Option String) :
    ∀ (subs : List (String × ℚ)) (ps : List (String × Player)) (k : String),
      k ∉ subs.map (·.1) →
      mapGet (applyPenalties al t w subs ps) k = mapGet ps k := by
  intro subs
  induction subs with
  | nil => intro ps k _; rfl
  | cons e rest ih =>
    intro ps k hk
    simp only [List.map_cons, List.mem_cons, not_or] at hk
    rw [applyPenalties_cons]
    by_cases hw : w = some e.1
    · rw [if_pos hw]; exact ih ps k hk.2
    · rw [if_neg hw]
      rw [ih _ k hk.2, mapGet_updPoints, if_neg (fun h => hk.1 h.symm)]

/-- Exact effect of the penalty loop on a submitting player, assuming each
player submitted once (distinct keys, as produced by the JS `Map`): the
winner is untouched, every other submitter loses exactly
`penaltyFor aliveLen target n` where `n` is its submitted value. -/
theorem applyPenalties_mapGet_mem (al : Nat) (t : ℚ) (w : Option String) :
    ∀ (subs : List (String × ℚ)) (ps : List (String × Player)) (k : String)
      (n : ℚ), (subs.map (·.1)).Nodup → (k, n) ∈ subs →
      mapGet (applyPenalties al t w subs ps) k =
        if w = some k then mapGet ps k
        else (mapGet ps k).map (fun p => addPoints p (penaltyFor al t n)) := by
  intro subs
  induction subs with
  | nil => intro ps k n _ hmem; simp at hmem
  | cons e rest ih =>
    intro ps k n hnd hmem
    simp only [List.map_cons, List.nodup_cons] at hnd
    rw [applyPenalties_cons]
    rcases List.mem_cons.1 hmem with heq | hmem'
    · have hk : e.1 = k := by rw [← heq]
      have hn : e.2 = n := by rw [← heq]
      have hknot : k ∉ rest.map (·.1) := hk ▸ hnd.1
      by_cases hw : w = some e.1

      · rw [if_pos hw, applyPenalties_mapGet_not_mem _ _ _ _ _ _ hknot,
          if_pos (hk ▸ hw)]
      · rw [if_neg hw, applyPenalties_mapGet_not_mem _ _ _ _ _ _ hknot,
          if_neg (hk ▸ hw), mapGet_updPoints, if_pos hk, hn]
    · have hkmem : k ∈ rest.map (·.1) :=
        List.mem_map.2 ⟨(k, n), hmem', rfl⟩
      have hk : ¬ e.1 = k := fun h => hnd.1 (h ▸ hkmem)
      by_cases hw : w = some e.1
      · rw [if_pos hw]; exact ih ps k n hnd.2 hmem'
      · rw [if_neg hw, ih _ k n hnd.2 hmem', mapGet_updPoints, if_neg hk]

/-- When the winner is `null`, every submitting player strictly loses
points. -/
theorem applyPenalties_none_strict (al : Nat) (t : ℚ) :
    ∀ (subs : List (String × ℚ)) (ps : List (String × Player)) (k : String)
      (n : ℚ) (p : Player), (k, n) ∈ subs → mapGet ps k = some p →
      ∃ p', mapGet (applyPenalties al t none subs ps) k = some p' ∧
        p'.points < p.points := by
  intro subs
  induction subs with
  | nil => intro ps k n p hmem; simp at hmem
  | cons e rest ih =>
    intro ps k n p hmem hget
    rw [applyPenalties_cons, if_neg (by simp)]
    rcases List.mem_cons.1 hmem with heq | hmem'
    · have hk : e.1 = k := by rw [← heq]
      have hupd : mapGet (updPoints ps e.1 (penaltyFor al t e.2)) k =
          some (addPoints p (penaltyFor al t e.2)) := by
        rw [mapGet_updPoints, if_pos hk, hget]; rfl
      obtain ⟨d, hd, hfin⟩ := applyPenalties_mapGet_some al t none rest _ k _ hupd
      refine ⟨_, hfin, ?_⟩
      have := penaltyFor_neg al t e.2
      simp only [addPoints]
      omega
    · by_cases hk : e.1 = k
      · have hupd : mapGet (updPoints ps e.1 (penaltyFor al t e.2)) k =
            some (addPoints p (penaltyFor al t e.2)) := by
          rw [mapGet_updPoints, if_pos hk, hget]; rfl
        obtain ⟨p', hfin, hlt⟩ := ih _ k n _ hmem' hupd
        refine ⟨p', hfin, ?_⟩
        have := penaltyFor_neg al t e.2
        simp only [addPoints] at hlt
        omega
      · have hupd : mapGet (updPoints ps e.1 (penaltyFor al t e.2)) k =
            some p := by rw [mapGet_updPoints, if_neg hk, hget]
        exact ih _ k n _ hmem' hupd

/-! ### Path characterisations of `calculateRoundResults` -/

/-- On the sudden-death branch the function returns early: winner is the
first `100`-submitter, and the state is untouched. -/
theorem calculateRoundResults_special (g : DeathGame) (h : specialRuleFires g) :
    calculateRoundResults g =
      (RoundResult.special
          ((g.roundNumbers.find? (fun e => decide (e.2 = (100 : ℚ)))).map (·.1)),
        g) := by
  rw [calculateRoundResults, if_pos h]

/-- On the normal branch: penalties, then eliminations, then the
`gameOver` computation. -/
theorem calculateRoundResults_not_special (g : DeathGame)
    (h : ¬ specialRuleFires g) :
    calculateRoundResults g =
      (RoundResult.normal (roundAverage g) (roundTarget g) (roundWinnerId g)
          (duplicates (roundValues g)) (newlyEliminated (postPenaltyPlayers g))
          (decide ((getAlivePlayers
            { g with players := applyElims (postPenaltyPlayers g),
                     eliminatedCount := g.eliminatedCount +
                       (newlyEliminated (postPenaltyPlayers g)).length }).length ≤ 1)),
        { g with players := applyElims (postPenaltyPlayers g),
                 eliminatedCount := g.eliminatedCount +
                   (newlyEliminated (postPenaltyPlayers g)).length }) := by
  rw [calculateRoundResults, if_neg h]

/-! ### State-preservation facts -/

theorem startRound_snd_players (g : DeathGame) :
    (startRound g).2.players = g.players := rfl

theorem submitNumber_snd_players (g : DeathGame) (pid : String) (n : ℚ) :
    (submitNumber g pid n).2.players = g.players := by
  unfold submitNumber
  split
  · rfl
  · cases mapGet g.players pid with
    | none => rfl
    | some p =>
      dsimp only
      split <;> rfl

theorem submitNumber_snd_phase (g : DeathGame) (pid : String) (n : ℚ) :
    (submitNumber g pid n).2.currentPhase = g.currentPhase := by
  unfold submitNumber
  split
  · rfl
  · cases mapGet g.players pid with
    | none => rfl
    | some p =>
      dsimp only
      split <;> rfl

/-- If a submission is recorded, the submission map only grows by the
submitting player's key. -/
theorem submitNumber_snd_roundNumbers (g : DeathGame) (pid : String) (n : ℚ) :
    (submitNumber g pid n).2.roundNumbers = g.roundNumbers ∨
      ((submitNumber g pid n).2.roundNumbers = mapSet g.roundNumbers pid n ∧
        ∃ p, mapGet g.players pid = some p ∧ p.isAlive = true) := by
  unfold submitNumber
  split
  · exact Or.inl rfl
  · cases hp : mapGet g.players pid with
    | none => exact Or.inl rfl
    | some p =>
      dsimp only
      split
      · exact Or.inr ⟨rfl, p, rfl, by assumption⟩
      · exact Or.inl rfl

/-- An alive player found in the map has its id among the alive ids. -/
theorem mem_aliveIds_of_mapGet {g : DeathGame} {pid : String} {p : Player}
    (h : mapGet g.players pid = some p) (ha : p.isAlive = true) :
    pid ∈ aliveIds g := by
  refine List.mem_map.2 ⟨(pid, p), List.mem_filter.2 ⟨mem_of_mapGet_eq_some h, ?_⟩, rfl⟩
  simpa using ha

/-- `aliveIds` only depends on the players map. -/
theorem aliveIds_eq_of_players_eq {g g' : DeathGame}
    (h : g'.players = g.players) : aliveIds g' = aliveIds g := by
  unfold aliveIds
  rw [h]

/-- If at least one submission is eligible, the winner search cannot come
back empty. -/
theorem findWinner_ne_none (al : Nat) (dups : List ℚ) (target : ℚ)
    (subs : List (String × ℚ)) (h : ∃ e ∈ subs, ¬(e.2 ∈ dups ∧ al ≤ 4)) :
    findWinner al dups target subs ≠ none := by
  unfold findWinner
  induction subs with
  | nil => simp at h
  | cons e rest ih =>
    simp only [List.foldl_cons]
    by_cases hskip : e.2 ∈ dups ∧ al ≤ 4
    · rw [winnerStep.eq_def, if_pos hskip]
      refine ih ?_
      obtain ⟨e', he', helig⟩ := h
      rcases List.mem_cons.1 he' with rfl | he'
      · exact absurd hskip helig
      · exact ⟨e', he', helig⟩
    · rw [winnerStep.eq_def, if_neg hskip]
      dsimp only
      obtain ⟨y, hy⟩ := foldl_winnerStep_some al dups target rest (e.1, |e.2 - target|)
      rw [hy]
      simp

/-! ### Claim C1 -/

/-- C1: in round resolution (when the sudden-death rule does not fire),
with `target = average × 0.8`: a submission whose value was submitted by
two or more players is excluded from winning when the alive-player count
is at most 4 (eligibility below is vacuous when more than 4 are alive, so
duplicates are then not excluded), and the winner — which exists as soon
as any eligible submission exists — is a player whose value has the
smallest absolute distance to `target` among all eligible submissions. -/
theorem C1_winner_selection (g : DeathGame) (h : ¬ specialRuleFires g) :
    roundTarget g = roundAverage g * (0.8 : ℚ) ∧
    (∀ pid, ((calculateRoundResults g).1).winner = some pid →
      ∃ n, (pid, n) ∈ g.roundNumbers ∧
        ¬(2 ≤ (roundValues g).count n ∧ (getAlivePlayers g).length ≤ 4) ∧
        ∀ e ∈ g.roundNumbers,
          ¬(2 ≤ (roundValues g).count e.2 ∧ (getAlivePlayers g).length ≤ 4) →
          |n - roundTarget g| ≤ |e.2 - roundTarget g|) ∧
    ((∃ e ∈ g.roundNumbers,
        ¬(2 ≤ (roundValues g).count e.2 ∧ (getAlivePlayers g).length ≤ 4)) →
      ((calculateRoundResults g).1).winner ≠ none) := by
  have hw : ((calculateRoundResults g).1).winner = roundWinnerId g := by
    rw [calculateRoundResults_not_special g h]
    rfl
  refine ⟨rfl, ?_, ?_⟩
  · intro pid hpid
    rw [hw] at hpid
    unfold roundWinnerId at hpid
    obtain ⟨w, hfw, hwpid⟩ := Option.map_eq_some'.1 hpid
    obtain ⟨H1, H2, _⟩ :=
      foldl_winnerStep_spec (getAlivePlayers g).length (duplicates (roundValues g))
        (roundTarget g) g.roundNumbers none w hfw
    rcases H1 with H1 | ⟨n, hn, helig, hd⟩
    · exact absurd H1 (by simp)
    · refine ⟨n, hwpid ▸ hn, ?_, ?_⟩
      · rintro ⟨hc, hal⟩
        exact helig ⟨(mem_duplicates_iff _ _).2 hc, hal⟩
      · intro e he helig'
        have h2 := H2 e he
          (fun hx => helig' ⟨(mem_duplicates_iff _ _).1 hx.1, hx.2⟩)
        rw [hd] at h2
        exact h2
  · intro hex
    rw [hw]
    unfold roundWinnerId
    obtain ⟨e, he, helig⟩ := hex
    have hne : findWinner (getAlivePlayers g).length (duplicates (roundValues g))
        (roundTarget g) g.roundNumbers ≠ none := by
      refine findWinner_ne_none _ _ _ _ ⟨e, he, ?_⟩
      rintro ⟨hm, hal⟩
      exact helig ⟨(mem_duplicates_iff _ _).1 hm, hal⟩
    intro hcon
    exact hne (Option.map_eq_none'.1 hcon)

/-- Witness for C1 at scenario A (five alive players, submissions
50, 50, 30, 70, 90). -/
theorem C1_winner_selection_witness :
    (¬ specialRuleFires gA) ∧
    (roundTarget gA = roundAverage gA * (0.8 : ℚ) ∧
    (∀ pid, ((calculateRoundResults gA).1).winner = some pid →
      ∃ n, (pid, n) ∈ gA.roundNumbers ∧
        ¬(2 ≤ (roundValues gA).count n ∧ (getAlivePlayers gA).length ≤ 4) ∧
        ∀ e ∈ gA.roundNumbers,
          ¬(2 ≤ (roundValues gA).count e.2 ∧ (getAlivePlayers gA).length ≤ 4) →
          |n - roundTarget gA| ≤ |e.2 - roundTarget gA|) ∧
    ((∃ e ∈ gA.roundNumbers,
        ¬(2 ≤ (roundValues gA).count e.2 ∧ (getAlivePlayers gA).length ≤ 4)) →
      ((calculateRoundResults gA).1).winner ≠ none)) :=
  ⟨by decide, C1_winner_selection gA (by decide)⟩

/-! ### Claim C2 -/

/-- C2: if exactly 2 players are alive and the two submitted numbers are
exactly 0 and 100, the resolution returns the 100-submitter as winner
with `gameOver = true` and `specialRule = true`, and the game state —
in particular every player's points and the elimination data — is left
completely unchanged. -/
theorem C2_sudden_death (g : DeathGame)
    (h2 : (getAlivePlayers g).length = 2)
    (hperm : List.Perm (roundValues g) [0, 100]) :
    ∃ pid, (pid, (100 : ℚ)) ∈ g.roundNumbers ∧
      ((calculateRoundResults g).1).winner = some pid ∧
      ((calculateRoundResults g).1).gameOver = true ∧
      ((calculateRoundResults g).1).specialRule = true ∧
      (calculateRoundResults g).2 = g := by
  have h0 : (0 : ℚ) ∈ roundValues g := hperm.mem_iff.2 (by simp)
  have h100 : (100 : ℚ) ∈ roundValues g := hperm.mem_iff.2 (by simp)
  have hs : specialRuleFires g := ⟨h2, h0, h100⟩
  obtain ⟨e, he, he2⟩ := List.mem_map.1 h100
  have hsome : (g.roundNumbers.find? (fun e => decide (e.2 = (100 : ℚ)))).isSome :=
    List.find?_isSome.2 ⟨e, he, by simp [he2]⟩
  obtain ⟨a, ha⟩ := Option.isSome_iff_exists.1 hsome
  have ha100 : a.2 = 100 := by
    have := List.find?_some ha
    simpa using this
  have hamem : a ∈ g.roundNumbers := List.mem_of_find?_eq_some ha
  refine ⟨a.1, ?_, ?_, ?_, ?_, ?_⟩
  · have hmem : (a.1, a.2) ∈ g.roundNumbers := by rwa [Prod.mk.eta]
    rw [ha100] at hmem
    exact hmem
  · rw [calculateRoundResults_special g hs, ha]
    rfl
  · rw [calculateRoundResults_special g hs]
    rfl
  · rw [calculateRoundResults_special g hs]
    rfl
  · rw [calculateRoundResults_special g hs]

/-- Witness for C2: two alive players submitting 0 and 100. -/
theorem C2_sudden_death_witness :
    ((getAlivePlayers gC2).length = 2 ∧ List.Perm (roundValues gC2) [0, 100]) ∧
    (∃ pid, (pid, (100 : ℚ)) ∈ gC2.roundNumbers ∧
      ((calculateRoundResults gC2).1).winner = some pid ∧
      ((calculateRoundResults gC2).1).gameOver = true ∧
      ((calculateRoundResults gC2).1).specialRule = true ∧
      (calculateRoundResults gC2).2 = gC2) :=
  ⟨⟨by decide, by decide⟩, C2_sudden_death gC2 (by decide) (by decide)⟩

/-! ### Claim C3 -/

/-- C3: in a normal-path resolution, after all penalties of the round are
applied (the players map `postPenaltyPlayers g`), every currently-alive
player whose points are at or below -10 is marked not-alive in that same
call, every other player is untouched, and `eliminatedCount` grows by
exactly the number of such players.  Elimination is decided from the
post-penalty points only, once per round. -/
theorem C3_eliminations (g : DeathGame) (h : ¬ specialRuleFires g) :
    (calculateRoundResults g).2.eliminatedCount =
      g.eliminatedCount +
        ((postPenaltyPlayers g).filter
          (fun e => e.2.isAlive && decide (e.2.points ≤ -10))).length ∧
    ∀ pid p, mapGet (postPenaltyPlayers g) pid = some p →
      mapGet (calculateRoundResults g).2.players pid =
        some (if p.isAlive ∧ p.points ≤ -10 then { p with isAlive := false }
              else p) := by
  rw [calculateRoundResults_not_special g h]
  constructor
  · simp [newlyEliminated]
  · intro pid p hp
    show mapGet (applyElims (postPenaltyPlayers g)) pid = _
    rw [mapGet_applyElims, hp]
    rfl

/-- Witness for C3: three alive players at 0, 0 and -9 points submitting
10, 20, 30; the -9 player loses a point and is eliminated. -/
theorem C3_eliminations_witness :
    (¬ specialRuleFires gC3) ∧
    ((calculateRoundResults gC3).2.eliminatedCount =
      gC3.eliminatedCount +
        ((postPenaltyPlayers gC3).filter
          (fun e => e.2.isAlive && decide (e.2.points ≤ -10))).length ∧
    ∀ pid p, mapGet (postPenaltyPlayers gC3) pid = some p →
      mapGet (calculateRoundResults gC3).2.players pid =
        some (if p.isAlive ∧ p.points ≤ -10 then { p with isAlive := false }
              else p)) :=
  ⟨by decide, C3_eliminations gC3 (by decide)⟩

/-! ### Claim C4 -/

/-- C4: in the penalty pass of a normal-path resolution (one submission
per player, as the JS `Map` guarantees), the winner's points are
unchanged and every other submitting player loses exactly 1 point —
except that with exactly 3 players alive a non-winner whose value equals
the target loses exactly 2. -/
theorem C4_penalties (g : DeathGame) (h : ¬ specialRuleFires g)
    (hnd : (g.roundNumbers.map (·.1)).Nodup) :
    ∀ pid n p, (pid, n) ∈ g.roundNumbers → mapGet g.players pid = some p →
      ∃ p', mapGet (calculateRoundResults g).2.players pid = some p' ∧
        (roundWinnerId g = some pid → p'.points = p.points) ∧
        (roundWinnerId g ≠ some pid →
          p'.points = p.points +
            (if (getAlivePlayers g).length = 3 ∧ n = roundTarget g
             then -2 else -1)) := by
  intro pid n p hmem hget
  have hmid := applyPenalties_mapGet_mem (getAlivePlayers g).length
    (roundTarget g) (roundWinnerId g) g.roundNumbers g.players pid n hnd hmem
  have hplayers : (calculateRoundResults g).2.players =
      applyElims (postPenaltyPlayers g) := by
    rw [calculateRoundResults_not_special g h]
  rw [hplayers, mapGet_applyElims]
  show ∃ p', (mapGet (applyPenalties _ _ _ _ _) pid).map elimPlayer = some p' ∧ _
  rw [hmid]
  by_cases hw : roundWinnerId g = some pid
  · rw [if_pos hw, hget]
    exact ⟨elimPlayer p, rfl, fun _ => elimPlayer_points p,
      fun hcon => absurd hw hcon⟩
  · rw [if_neg hw, hget]
    refine ⟨elimPlayer (addPoints p (penaltyFor (getAlivePlayers g).length
      (roundTarget g) n)), rfl, fun hcon => absurd hcon hw, fun _ => ?_⟩
    rw [elimPlayer_points]
    rfl

/-- Witness for C4: three alive players submitting 4, 4, 7 (average 5,
target 4): the 4-submitters are duplicates, `r3` wins, and both
non-winners submitted exactly the target, so each loses 2 points. -/
theorem C4_penalties_witness :
    ((¬ specialRuleFires gC4) ∧ (gC4.roundNumbers.map (·.1)).Nodup) ∧
    (∀ pid n p, (pid, n) ∈ gC4.roundNumbers → mapGet gC4.players pid = some p →
      ∃ p', mapGet (calculateRoundResults gC4).2.players pid = some p' ∧
        (roundWinnerId gC4 = some pid → p'.points = p.points) ∧
        (roundWinnerId gC4 ≠ some pid →
          p'.points = p.points +
            (if (getAlivePlayers gC4).length = 3 ∧ n = roundTarget gC4
             then -2 else -1))) :=
  ⟨⟨by decide, by decide⟩, C4_penalties gC4 (by decide) (by decide)⟩

/-! ### Claim C5 -/

/-- Counterexample to C5 as stated: on the sudden-death branch the
resolution reports `gameOver = true` while two players are still alive
afterwards, so "`gameOver = true` iff at most one player is alive after
the elimination check" fails. -/
theorem C5_counterexample :
    ((calculateRoundResults gC5x).1).gameOver = true ∧
    ¬ ((getAlivePlayers (calculateRoundResults gC5x).2).length ≤ 1) := by
  decide

/-- C5 amended: when the sudden-death rule did not fire, the resolution
reports `gameOver = true` iff at most one player is alive after the
elimination check; when it did fire, `gameOver = true` is reported
unconditionally (with the state, hence the 2-player alive count,
unchanged). -/
theorem C5_gameOver_amended (g : DeathGame) :
    (¬ specialRuleFires g →
      (((calculateRoundResults g).1).gameOver = true ↔
        (getAlivePlayers (calculateRoundResults g).2).length ≤ 1)) ∧
    (specialRuleFires g →
      ((calculateRoundResults g).1).gameOver = true ∧
        (calculateRoundResults g).2 = g) := by
  constructor
  · intro h
    rw [calculateRoundResults_not_special g h]
    show decide _ = true ↔ _
    rw [decide_eq_true_iff]
  · intro h
    rw [calculateRoundResults_special g h]
    exact ⟨rfl, rfl⟩

/-- Witness for the amended C5 on a normal-path input (four alive players,
all submissions duplicated). -/
theorem C5_gameOver_amended_witness :
    (¬ specialRuleFires gC5n) ∧
    (((calculateRoundResults gC5n).1).gameOver = true ↔
      (getAlivePlayers (calculateRoundResults gC5n).2).length ≤ 1) :=
  ⟨by decide, (C5_gameOver_amended gC5n).1 (by decide)⟩

/-! ### Claim C6 -/

/-- C6 (evaluation at the failing input): `calculateRoundResults()` never
assigns `currentPhase`, so after a resolution the phase is still
`playing` — not `roundEnd` — and a further `submitNumber` call before the
next `startRound` is accepted (it is recorded, and it even reports the
round as complete again, so the handler would resolve the same round a
second time). -/
theorem C6_phase_staying_playing :
    (calculateRoundResults gC6).2.currentPhase = Phase.playing ∧
    (submitNumber (calculateRoundResults gC6).2 "w1" 99).1 = true ∧
    mapGet (submitNumber (calculateRoundResults gC6).2 "w1" 99).2.roundNumbers
      "w1" = some 99 := by
  decide

/-! ### Claim C9 -/

/-- C9: if at most 4 players are alive, every alive player submitted (one
submission per alive player) and every submitted value is shared by two
or more players, then the resolution selects no winner and every
submitting player strictly loses points. -/
theorem C9_all_duplicates_no_winner (g : DeathGame)
    (h4 : (getAlivePlayers g).length ≤ 4)
    (hlen : g.roundNumbers.length = (getAlivePlayers g).length)
    (hdup : ∀ n ∈ roundValues g, 2 ≤ (roundValues g).count n) :
    ((calculateRoundResults g).1).winner = none ∧
    ∀ pid n p, (pid, n) ∈ g.roundNumbers → mapGet g.players pid = some p →
      ∃ p', mapGet (calculateRoundResults g).2.players pid = some p' ∧
        p'.points < p.points := by
  have hns : ¬ specialRuleFires g := by
    rintro ⟨h2, h0, h100⟩
    have hlv : (roundValues g).length = 2 := by
      unfold roundValues
      rw [List.length_map, hlen, h2]
    have hc0 : 2 ≤ (roundValues g).count 0 := hdup 0 h0
    have hcle : (roundValues g).count 0 ≤ 2 :=
      hlv ▸ List.count_le_length 0 (roundValues g)
    have hceq : (roundValues g).count 0 = (roundValues g).length := by omega
    have hall := List.count_eq_length.1 hceq 100 h100
    simp at hall
  have hwin : roundWinnerId g = none := by
    unfold roundWinnerId
    rw [findWinner_eq_none]
    · rfl
    · intro e he
      exact ⟨(mem_duplicates_iff _ _).2 (hdup e.2 (List.mem_map.2 ⟨e, he, rfl⟩)),
        h4⟩
  constructor
  · rw [calculateRoundResults_not_special g hns]
    exact hwin
  · intro pid n p hmem hget
    have hplayers : (calculateRoundResults g).2.players =
        applyElims (postPenaltyPlayers g) := by
      rw [calculateRoundResults_not_special g hns]
    obtain ⟨p', hfin, hlt⟩ := applyPenalties_none_strict
      (getAlivePlayers g).length (roundTarget g) g.roundNumbers g.players
      pid n p hmem hget
    refine ⟨elimPlayer p', ?_, ?_⟩
    · rw [hplayers, mapGet_applyElims]
      unfold postPenaltyPlayers
      rw [hwin, hfin]
      rfl
    · rw [elimPlayer_points]
      exact hlt

/-- Witness for C9: four alive players submitting 5, 5, 7, 7. -/
theorem C9_all_duplicates_no_winner_witness :
    ((getAlivePlayers gC9).length ≤ 4 ∧
      gC9.roundNumbers.length = (getAlivePlayers gC9).length ∧
      ∀ n ∈ roundValues gC9, 2 ≤ (roundValues gC9).count n) ∧
    (((calculateRoundResults gC9).1).winner = none ∧
    ∀ pid n p, (pid, n) ∈ gC9.roundNumbers → mapGet gC9.players pid = some p →
      ∃ p', mapGet (calculateRoundResults gC9).2.players pid = some p' ∧
        p'.points < p.points) :=
  ⟨⟨by decide, by decide, by decide⟩,
    C9_all_duplicates_no_winner gC9 (by decide) (by decide) (by decide)⟩

/-! ### Claim C8 -/

theorem pointsD_players_eq {g g' : DeathGame} (h : g'.players = g.players)
    (pid : String) : pointsD g' pid = pointsD g pid := by
  unfold pointsD
  rw [h]

/-- Every single game operation leaves each player's points unchanged or
lower. -/
theorem pointsD_applyOp_le (g : DeathGame) (op : GameOp) (pid : String) :
    pointsD (applyOp g op) pid ≤ pointsD g pid := by
  cases op with
  | startOp => exact le_of_eq (pointsD_players_eq (startRound_snd_players g) pid)
  | submitOp q n =>
    exact le_of_eq (pointsD_players_eq (submitNumber_snd_players g q n) pid)
  | nextRoundOp =>
    exact le_of_eq (pointsD_players_eq (startRound_snd_players _) pid)
  | resolveOp =>
    show pointsD (calculateRoundResults g).2 pid ≤ pointsD g pid
    by_cases hs : specialRuleFires g
    · rw [calculateRoundResults_special g hs]
    · have hplayers : (calculateRoundResults g).2.players =
          applyElims (postPenaltyPlayers g) := by
        rw [calculateRoundResults_not_special g hs]
      unfold pointsD
      rw [hplayers, mapGet_applyElims]
      unfold postPenaltyPlayers
      cases hget : mapGet g.players pid with
      | none =>
        rw [applyPenalties_mapGet_none (getAlivePlayers g).length (roundTarget g)
          (roundWinnerId g) g.roundNumbers g.players pid hget]
        simp
      | some p =>
        obtain ⟨d, hd, hfin⟩ := applyPenalties_mapGet_some
          (getAlivePlayers g).length (roundTarget g) (roundWinnerId g)
          g.roundNumbers g.players pid p hget
        rw [hfin]
        simp only [Option.map_some', Option.getD_some, elimPlayer_points]
        simp only [addPoints]
        omega

theorem pointsD_applyOps_le :
    ∀ (ops : List GameOp) (g : DeathGame) (pid : String),
      pointsD (applyOps g ops) pid ≤ pointsD g pid := by
  intro ops
  induction ops with
  | nil => intro g pid; exact le_refl _
  | cons op rest ih =>
    intro g pid
    have h1 : applyOps g (op :: rest) = applyOps (applyOp g op) rest := by
      simp [applyOps, List.foldl_cons]
    rw [h1]
    exact le_trans (ih (applyOp g op) pid) (pointsD_applyOp_le g op pid)

/-- C8: across every sequence of game operations (round starts,
submissions, round resolutions, scheduler round advances), a player's
points never increase; in particular each single operation leaves them
unchanged or lower. -/
theorem C8_points_monotone (g : DeathGame) (ops : List GameOp) (pid : String) :
    pointsD (applyOps g ops) pid ≤ pointsD g pid ∧
    ∀ op : GameOp, pointsD (applyOp g op) pid ≤ pointsD g pid :=
  ⟨pointsD_applyOps_le ops g pid, fun op => pointsD_applyOp_le g op pid⟩

/-! ### Claim C10 -/

theorem mem_mapSet {κ α : Type} [DecidableEq κ] {m : List (κ × α)} {k : κ}
    {v : α} {e : κ × α} (h : e ∈ mapSet m k v) : e ∈ m ∨ e = (k, v) := by
  induction m with
  | nil =>
    simp only [mapSet, List.mem_singleton] at h
    exact Or.inr h
  | cons e' rest ih =>
    by_cases he : e'.1 = k
    · simp only [mapSet, if_pos he, List.mem_cons] at h
      rcases h with h | h
      · exact Or.inr h
      · exact Or.inl (List.mem_cons_of_mem _ h)
    · simp only [mapSet, if_neg he, List.mem_cons] at h
      rcases h with h | h
      · exact Or.inl (List.mem_cons.2 (Or.inl h))
      · rcases ih h with h' | h'
        · exact Or.inl (List.mem_cons_of_mem _ h')
        · exact Or.inr h'

/-- One serialized registry event preserves "every waiting room holds at
most 4 players". -/
theorem registry_rooms_le_four_step (R : Registry) (ev : RegistryEvent)
    (h : ∀ e ∈ R.rooms, e.2.players.length ≤ 4) :
    ∀ e ∈ (applyRegistryEvent R ev).rooms, e.2.players.length ≤ 4 := by
  cases ev with
  | createEvt c s n =>
    intro e he
    rcases mem_mapSet he with he' | he'
    · exact h e he'
    · rw [he']
      simp
  | joinEvt c s n =>
    intro e he
    revert he
    show e ∈ (joinRoom R c s n).2.rooms → e.2.players.length ≤ 4
    unfold joinRoom
    split
    · exact fun he => h e he
    next room hroom =>
      have hle : room.players.length ≤ 4 :=
        h (c, room) (mem_of_mapGet_eq_some hroom)
      split
      · exact fun he => h e he
      · dsimp only
        split
        · exact fun he => h e (mem_of_mem_mapDelete he)
        next h5 =>
          intro he
          rcases mem_mapSet he with he' | he'
          · exact h e he'
          · rw [he']
            have := length_mapSet_le room.players s (mkPlayer s n)
            show (mapSet room.players s (mkPlayer s n)).length ≤ 4
            omega

/-- Registry invariant holds at every reachable registry state. -/
theorem registry_rooms_le_four (evs : List RegistryEvent) :
    ∀ e ∈ (applyRegistryEvents evs).rooms, e.2.players.length ≤ 4 := by
  suffices h : ∀ (evs : List RegistryEvent) (R : Registry),
      (∀ e ∈ R.rooms, e.2.players.length ≤ 4) →
      ∀ e ∈ (evs.foldl applyRegistryEvent R).rooms, e.2.players.length ≤ 4 by
    exact h evs emptyRegistry (by intro e he; simp [emptyRegistry] at he)
  intro evs
  induction evs with
  | nil => intro R hR; exact hR
  | cons ev rest ih =>
    intro R hR
    exact ih (applyRegistryEvent R ev) (registry_rooms_le_four_step R ev hR)

/-- C10: in every registry state reachable by a serialized sequence of
`createRoom`/`joinRoom` events, every waiting room holds at most 4
players (a room reaching 5 is immediately converted into a game and
removed), and therefore the `Room is full` branch of `joinRoom` can never
be taken. -/
theorem C10_room_full_unreachable (evs : List RegistryEvent) :
    (∀ e ∈ (applyRegistryEvents evs).rooms, e.2.players.length ≤ 4) ∧
    (∀ code sid playerName,
      (joinRoom (applyRegistryEvents evs) code sid playerName).1 ≠
        JoinResult.roomFull) := by
  refine ⟨registry_rooms_le_four evs, ?_⟩
  intro code sid playerName
  unfold joinRoom
  split
  · simp
  next room hroom =>
    have hle : room.players.length ≤ 4 :=
      registry_rooms_le_four evs (code, room) (mem_of_mapGet_eq_some hroom)
    rw [if_neg (show ¬ 5 ≤ room.players.length by omega)]
    dsimp only
    split <;> simp

/-- The final state of the C7 trace. -/
theorem applyEvents_eventsC7 :
    applyEvents (initGame playersC7) eventsC7 = sC7_14 := by
  have h0 : initGame playersC7 = sC7_0 := by decide
  have h1 : applyEvent sC7_0 (GameEvent.submitEvt "p1" 50) = sC7_1 := by
    decide
  have h2 : applyEvent sC7_1 (GameEvent.submitEvt "p2" 50) = sC7_2 := by
    decide
  have h3 : applyEvent sC7_2 (GameEvent.submitEvt "p3" 50) = sC7_3 := by
    decide
  have h4 : applyEvent sC7_3 (GameEvent.submitEvt "p4" 50) = sC7_4 := by
    decide
  have h5 : applyEvent sC7_4 (GameEvent.submitEvt "p5" 50) = sC7_5 := by
    have hsub : submitNumber sC7_4 "p5" 50 = (true, sC7_4b) := by decide
    have hns : ¬ specialRuleFires sC7_4b := by decide
    have ht : roundTarget sC7_4b = 40 := by
      norm_num [roundTarget, roundAverage, roundValues, sC7_4b]
    have hw : roundWinnerId sC7_4b = some "p1" := by
      norm_num [roundWinnerId, findWinner, winnerStep, duplicates, roundValues,
      roundTarget, roundAverage, getAlivePlayers, sC7_4b, testPlayer, List.foldl,
      List.enum, List.enumFrom, List.indexOf, List.findIdx, List.findIdx.go,
      abs_of_nonneg, abs_of_nonpos]
    have hmid : postPenaltyPlayers sC7_4b =
        [("p1", testPlayer "p1" (0) true),
         ("p2", testPlayer "p2" (-1) true),
         ("p3", testPlayer "p3" (-1) true),
         ("p4", testPlayer "p4" (-1) true),
         ("p5", testPlayer "p5" (-1) true)] := by
      rw [postPenaltyPlayers, ht, hw]
      decide
    show (if (submitNumber sC7_4 "p5" 50).1 then
        (calculateRoundResults (submitNumber sC7_4 "p5" 50).2).2
      else (submitNumber sC7_4 "p5" 50).2) = sC7_5
    rw [hsub]
    show (calculateRoundResults sC7_4b).2 = sC7_5
    rw [calculateRoundResults, if_neg hns, hmid]
    decide
  have h6 : applyEvent sC7_5 (GameEvent.submitEvt "p1" 50) = sC7_6 := by
    have hsub : submitNumber sC7_5 "p1" 50 = (true, sC7_5) := by decide
    have hns : ¬ specialRuleFires sC7_5 := by decide
    have ht : roundTarget sC7_5 = 40 := by
      norm_num [roundTarget, roundAverage, roundValues, sC7_5]
    have hw : roundWinnerId sC7_5 = some "p1" := by
      norm_num [roundWinnerId, findWinner, winnerStep, duplicates, roundValues,
      roundTarget, roundAverage, getAlivePlayers, sC7_5, testPlayer, List.foldl,
      List.enum, List.enumFrom, List.indexOf, List.findIdx, List.findIdx.go,
      abs_of_nonneg, abs_of_nonpos]
    have hmid : postPenaltyPlayers sC7_5 =
        [("p1", testPlayer "p1" (0) true),
         ("p2", testPlayer "p2" (-2) true),
         ("p3", testPlayer "p3" (-2) true),
         ("p4", testPlayer "p4" (-2) true),
         ("p5", testPlayer "p5" (-2) true)] := by
      rw [postPenaltyPlayers, ht, hw]
      decide
    show (if (submitNumber sC7_5 "p1" 50).1 then
        (calculateRoundResults (submitNumber sC7_5 "p1" 50).2).2
      else (submitNumber sC7_5 "p1" 50).2) = sC7_6
    rw [hsub]
    show (calculateRoundResults sC7_5).2 = sC7_6
    rw [calculateRoundResults, if_neg hns, hmid]
    decide
  have h7 : applyEvent sC7_6 (GameEvent.submitEvt "p1" 50) = sC7_7 := by
    have hsub : submitNumber sC7_6 "p1" 50 = (true, sC7_6) := by decide
    have hns : ¬ specialRuleFires sC7_6 := by decide
    have ht : roundTarget sC7_6 = 40 := by
      norm_num [roundTarget, roundAverage, roundValues, sC7_6]
    have hw : roundWinnerId sC7_6 = some "p1" := by
      norm_num [roundWinnerId, findWinner, winnerStep, duplicates, roundValues,
      roundTarget, roundAverage, getAlivePlayers, sC7_6, testPlayer, List.foldl,
      List.enum, List.enumFrom, List.indexOf, List.findIdx, List.findIdx.go,
      abs_of_nonneg, abs_of_nonpos]
    have hmid : postPenaltyPlayers sC7_6 =
        [("p1", testPlayer "p1" (0) true),
         ("p2", testPlayer "p2" (-3) true),
         ("p3", testPlayer "p3" (-3) true),
         ("p4", testPlayer "p4" (-3) true),
         ("p5", testPlayer "p5" (-3) true)] := by
      rw [postPenaltyPlayers, ht, hw]
      decide
    show (if (submitNumber sC7_6 "p1" 50).1 then
        (calculateRoundResults (submitNumber sC7_6 "p1" 50).2).2
      else (submitNumber sC7_6 "p1" 50).2) = sC7_7
    rw [hsub]
    show (calculateRoundResults sC7_6).2 = sC7_7
    rw [calculateRoundResults, if_neg hns, hmid]
    decide
  have h8 : applyEvent sC7_7 (GameEvent.submitEvt "p1" 50) = sC7_8 := by
    have hsub : submitNumber sC7_7 "p1" 50 = (true, sC7_7) := by decide
    have hns : ¬ specialRuleFires sC7_7 := by decide
    have ht : roundTarget sC7_7 = 40 := by
      norm_num [roundTarget, roundAverage, roundValues, sC7_7]
    have hw : roundWinnerId sC7_7 = some "p1" := by
      norm_num [roundWinnerId, findWinner, winnerStep, duplicates, roundValues,
      roundTarget, roundAverage, getAlivePlayers, sC7_7, testPlayer, List.foldl,
      List.enum, List.enumFrom, List.indexOf, List.findIdx, List.findIdx.go,
      abs_of_nonneg, abs_of_nonpos]
    have hmid : postPenaltyPlayers sC7_7 =
        [("p1", testPlayer "p1" (0) true),
         ("p2", testPlayer "p2" (-4) true),
         ("p3", testPlayer "p3" (-4) true),
         ("p4", testPlayer "p4" (-4) true),
         ("p5", testPlayer "p5" (-4) true)] := by
      rw [postPenaltyPlayers, ht, hw]
      decide
    show (if (submitNumber sC7_7 "p1" 50).1 then
        (calculateRoundResults (submitNumber sC7_7 "p1" 50).2).2
      else (submitNumber sC7_7 "p1" 50).2) = sC7_8
    rw [hsub]
    show (calculateRoundResults sC7_7).2 = sC7_8
    rw [calculateRoundResults, if_neg hns, hmid]
    decide
  have h9 : applyEvent sC7_8 (GameEvent.submitEvt "p1" 50) = sC7_9 := by
    have hsub : submitNumber sC7_8 "p1" 50 = (true, sC7_8) := by decide
    have hns : ¬ specialRuleFires sC7_8 := by decide
    have ht : roundTarget sC7_8 = 40 := by
      norm_num [roundTarget, roundAverage, roundValues, sC7_8]
    have hw : roundWinnerId sC7_8 = some "p1" := by
      norm_num [roundWinnerId, findWinner, winnerStep, duplicates, roundValues,
      roundTarget, roundAverage, getAlivePlayers, sC7_8, testPlayer, List.foldl,
      List.enum, List.enumFrom, List.indexOf, List.findIdx, List.findIdx.go,
      abs_of_nonneg, abs_of_nonpos]
    have hmid : postPenaltyPlayers sC7_8 =
        [("p1", testPlayer "p1" (0) true),
         ("p2", testPlayer "p2" (-5) true),
         ("p3", testPlayer "p3" (-5) true),
         ("p4", testPlayer "p4" (-5) true),
         ("p5", testPlayer "p5" (-5) true)] := by
      rw [postPenaltyPlayers, ht, hw]
      decide
    show (if (submitNumber sC7_8 "p1" 50).1 then
        (calculateRoundResults (submitNumber sC7_8 "p1" 50).2).2
      else (submitNumber sC7_8 "p1" 50).2) = sC7_9
    rw [hsub]
    show (calculateRoundResults sC7_8).2 = sC7_9
    rw [calculateRoundResults, if_neg hns, hmid]
    decide
  have h10 : applyEvent sC7_9 (GameEvent.submitEvt "p5" 40) = sC7_10 := by
    have hsub : submitNumber sC7_9 "p5" 40 = (true, sC7_9b) := by decide
    have hns : ¬ specialRuleFires sC7_9b := by decide
    have ht : roundTarget sC7_9b = 192/5 := by
      norm_num [roundTarget, roundAverage, roundValues, sC7_9b]
    have hw : roundWinnerId sC7_9b = some "p5" := by
      norm_num [roundWinnerId, findWinner, winnerStep, duplicates, roundValues,
      roundTarget, roundAverage, getAlivePlayers, sC7_9b, testPlayer, List.foldl,
      List.enum, List.enumFrom, List.indexOf, List.findIdx, List.findIdx.go,
      abs_of_nonneg, abs_of_nonpos]
    have hmid : postPenaltyPlayers sC7_9b =
        [("p1", testPlayer "p1" (-1) true),
         ("p2", testPlayer "p2" (-6) true),
         ("p3", testPlayer "p3" (-6) true),
         ("p4", testPlayer "p4" (-6) true),
         ("p5", testPlayer "p5" (-5) true)] := by
      rw [postPenaltyPlayers, ht, hw]
      decide
    show (if (submitNumber sC7_9 "p5" 40).1 then
        (calculateRoundResults (submitNumber sC7_9 "p5" 40).2).2
      else (submitNumber sC7_9 "p5" 40).2) = sC7_10
    rw [hsub]
    show (calculateRoundResults sC7_9b).2 = sC7_10
    rw [calculateRoundResults, if_neg hns, hmid]
    decide
  have h11 : applyEvent sC7_10 (GameEvent.submitEvt "p1" 50) = sC7_11 := by
    have hsub : submitNumber sC7_10 "p1" 50 = (true, sC7_10) := by decide
    have hns : ¬ specialRuleFires sC7_10 := by decide
    have ht : roundTarget sC7_10 = 192/5 := by
      norm_num [roundTarget, roundAverage, roundValues, sC7_10]
    have hw : roundWinnerId sC7_10 = some "p5" := by
      norm_num [roundWinnerId, findWinner, winnerStep, duplicates, roundValues,
      roundTarget, roundAverage, getAlivePlayers, sC7_10, testPlayer, List.foldl,
      List.enum, List.enumFrom, List.indexOf, List.findIdx, List.findIdx.go,
      abs_of_nonneg, abs_of_nonpos]
    have hmid : postPenaltyPlayers sC7_10 =
        [("p1", testPlayer "p1" (-2) true),
         ("p2", testPlayer "p2" (-7) true),
         ("p3", testPlayer "p3" (-7) true),
         ("p4", testPlayer "p4" (-7) true),
         ("p5", testPlayer "p5" (-5) true)] := by
      rw [postPenaltyPlayers, ht, hw]
      decide
    show (if (submitNumber sC7_10 "p1" 50).1 then
        (calculateRoundResults (submitNumber sC7_10 "p1" 50).2).2
      else (submitNumber sC7_10 "p1" 50).2) = sC7_11
    rw [hsub]
    show (calculateRoundResults sC7_10).2 = sC7_11
    rw [calculateRoundResults, if_neg hns, hmid]
    decide
  have h12 : applyEvent sC7_11 (GameEvent.submitEvt "p1" 50) = sC7_12 := by
    have hsub : submitNumber sC7_11 "p1" 50 = (true, sC7_11) := by decide
    have hns : ¬ specialRuleFires sC7_11 := by decide
    have ht : roundTarget sC7_11 = 192/5 := by
      norm_num [roundTarget, roundAverage, roundValues, sC7_11]
    have hw : roundWinnerId sC7_11 = some "p5" := by
      norm_num [roundWinnerId, findWinner, winnerStep, duplicates, roundValues,
      roundTarget, roundAverage, getAlivePlayers, sC7_11, testPlayer, List.foldl,
      List.enum, List.enumFrom, List.indexOf, List.findIdx, List.findIdx.go,
      abs_of_nonneg, abs_of_nonpos]
    have hmid : postPenaltyPlayers sC7_11 =
        [("p1", testPlayer "p1" (-3) true),
         ("p2", testPlayer "p2" (-8) true),
         ("p3", testPlayer "p3" (-8) true),
         ("p4", testPlayer "p4" (-8) true),
         ("p5", testPlayer "p5" (-5) true)] := by
      rw [postPenaltyPlayers, ht, hw]
      decide
    show (if (submitNumber sC7_11 "p1" 50).1 then
        (calculateRoundResults (submitNumber sC7_11 "p1" 50).2).2
      else (submitNumber sC7_11 "p1" 50).2) = sC7_12
    rw [hsub]
    show (calculateRoundResults sC7_11).2 = sC7_12
    rw [calculateRoundResults, if_neg hns, hmid]
    decide
  have h13 : applyEvent sC7_12 (GameEvent.submitEvt "p1" 50) = sC7_13 := by
    have hsub : submitNumber sC7_12 "p1" 50 = (true, sC7_12) := by decide
    have hns : ¬ specialRuleFires sC7_12 := by decide
    have ht : roundTarget sC7_12 = 192/5 := by
      norm_num [roundTarget, roundAverage, roundValues, sC7_12]
    have hw : roundWinnerId sC7_12 = some "p5" := by
      norm_num [roundWinnerId, findWinner, winnerStep, duplicates, roundValues,
      roundTarget, roundAverage, getAlivePlayers, sC7_12, testPlayer, List.foldl,
      List.enum, List.enumFrom, List.indexOf, List.findIdx, List.findIdx.go,
      abs_of_nonneg, abs_of_nonpos]
    have hmid : postPenaltyPlayers sC7_12 =
        [("p1", testPlayer "p1" (-4) true),
         ("p2", testPlayer "p2" (-9) true),
         ("p3", testPlayer "p3" (-9) true),
         ("p4", testPlayer "p4" (-9) true),
         ("p5", testPlayer "p5" (-5) true)] := by
      rw [postPenaltyPlayers, ht, hw]
      decide
    show (if (submitNumber sC7_12 "p1" 50).1 then
        (calculateRoundResults (submitNumber sC7_12 "p1" 50).2).2
      else (submitNumber sC7_12 "p1" 50).2) = sC7_13
    rw [hsub]
    show (calculateRoundResults sC7_12).2 = sC7_13
    rw [calculateRoundResults, if_neg hns, hmid]
    decide
  have h14 : applyEvent sC7_13 (GameEvent.submitEvt "p1" 50) = sC7_14 := by
    have hsub : submitNumber sC7_13 "p1" 50 = (true, sC7_13) := by decide
    have hns : ¬ specialRuleFires sC7_13 := by decide
    have ht : roundTarget sC7_13 = 192/5 := by
      norm_num [roundTarget, roundAverage, roundValues, sC7_13]
    have hw : roundWinnerId sC7_13 = some "p5" := by
      norm_num [roundWinnerId, findWinner, winnerStep, duplicates, roundValues,
      roundTarget, roundAverage, getAlivePlayers, sC7_13, testPlayer, List.foldl,
      List.enum, List.enumFrom, List.indexOf, List.findIdx, List.findIdx.go,
      abs_of_nonneg, abs_of_nonpos]
    have hmid : postPenaltyPlayers sC7_13 =
        [("p1", testPlayer "p1" (-5) true),
         ("p2", testPlayer "p2" (-10) true),
         ("p3", testPlayer "p3" (-10) true),
         ("p4", testPlayer "p4" (-10) true),
         ("p5", testPlayer "p5" (-5) true)] := by
      rw [postPenaltyPlayers, ht, hw]
      decide
    show (if (submitNumber sC7_13 "p1" 50).1 then
        (calculateRoundResults (submitNumber sC7_13 "p1" 50).2).2
      else (submitNumber sC7_13 "p1" 50).2) = sC7_14
    rw [hsub]
    show (calculateRoundResults sC7_13).2 = sC7_14
    rw [calculateRoundResults, if_neg hns, hmid]
    decide
  show applyEvents (initGame playersC7) eventsC7 = sC7_14
  rw [h0]
  unfold eventsC7 applyEvents
  rw [List.foldl_cons, h1, List.foldl_cons, h2, List.foldl_cons, h3, List.foldl_cons, h4, List.foldl_cons, h5, List.foldl_cons, h6, List.foldl_cons, h7, List.foldl_cons, h8, List.foldl_cons, h9, List.foldl_cons, h10, List.foldl_cons, h11, List.foldl_cons, h12, List.foldl_cons, h13, List.foldl_cons, h14, List.foldl_nil]

/-! ### Claim C7 -/

/-- Counterexample to C7 as stated: after the tenth resolution of the
trace (a state genuinely reachable through the socket handlers), the
submission keys still contain `p2`, which was just eliminated — so
`roundSubmissions` keys are not a subset of the alive ids at every
reachable state. -/
theorem C7_counterexample :
    "p2" ∈ (applyEvents (initGame playersC7) eventsC7).roundNumbers.map (·.1) ∧
    "p2" ∉ aliveIds (applyEvents (initGame playersC7) eventsC7) := by
  rw [applyEvents_eventsC7]
  exact ⟨by decide, by decide⟩

/-- One `submitNumber` call preserves "submission keys ⊆ alive ids". -/
theorem submitNumber_keys_alive (g : DeathGame)
    (h : ∀ pid ∈ g.roundNumbers.map (·.1), pid ∈ aliveIds g)
    (q : String) (n : ℚ) :
    ∀ pid ∈ (submitNumber g q n).2.roundNumbers.map (·.1),
      pid ∈ aliveIds (submitNumber g q n).2 := by
  intro pid hpid
  rw [aliveIds_eq_of_players_eq (submitNumber_snd_players g q n)]
  rcases submitNumber_snd_roundNumbers g q n with hrn | ⟨hrn, p, hp, hpa⟩
  · rw [hrn] at hpid
    exact h pid hpid
  · rw [hrn] at hpid
    rcases fst_mem_mapSet hpid with h' | h'
    · exact h pid h'
    · rw [h']
      exact mem_aliveIds_of_mapGet hp hpa

/-- A run of `submitNumber` calls preserves "submission keys ⊆ alive
ids". -/
theorem applySubmits_keys_alive :
    ∀ (subs : List (String × ℚ)) (g : DeathGame),
      (∀ pid ∈ g.roundNumbers.map (·.1), pid ∈ aliveIds g) →
      ∀ pid ∈ (applySubmits g subs).roundNumbers.map (·.1),
        pid ∈ aliveIds (applySubmits g subs) := by
  intro subs
  induction subs with
  | nil => intro g h; exact h
  | cons e rest ih =>
    intro g h
    have hstep := submitNumber_keys_alive g h e.1 e.2
    have hfold : applySubmits g (e :: rest) =
        applySubmits (submitNumber g e.1 e.2).2 rest := by
      simp [applySubmits, List.foldl_cons]
    rw [hfold]
    exact ih (submitNumber g e.1 e.2).2 hstep

/-- C7 amended: "`roundSubmissions` keys ⊆ currently-alive player ids"
holds on a freshly constructed `DeathGame` and at every state whose
history since the last `startRound()` consists of submissions only — in
particular throughout the collection phase of every round.  (It can be
broken by a round resolution that eliminates a submitting player, whose
stale key remains until the next `startRound()` clears the map, as the
counterexample shows.) -/
theorem C7_keys_alive_amended (g : DeathGame) (subs : List (String × ℚ)) :
    (∀ ps : List (String × Player), ∀ pid,
      pid ∈ (mkDeathGame ps).roundNumbers.map (·.1) →
      pid ∈ aliveIds (mkDeathGame ps)) ∧
    (∀ pid ∈ (applySubmits (startRound g).2 subs).roundNumbers.map (·.1),
      pid ∈ aliveIds (applySubmits (startRound g).2 subs)) := by
  constructor
  · intro ps pid hpid
    simp [mkDeathGame] at hpid
  · refine applySubmits_keys_alive subs (startRound g).2 ?_
    intro pid hpid
    simp [startRound] at hpid

end DeathBack
